import Mathlib

/-!
Verification of the `move-package-analyzer` model loader
(`crates/move-package-analyzer/src/model/{loader,move_model,global_env,walkers}.rs`).

Shallow embedding conventions:
* Machine integers that only act as pool indices or opaque payloads are `Nat`.
* `ObjectID` / `AccountAddress` values are represented by their printed form
  (a `String`); the code only compares them and formats them into canonical
  `"addr::module::name"` keys.
* `BTreeMap` values are association lists; `collectMap` reverses the entry
  list so that a lookup returns the value of the *last* inserted entry, the
  semantics of collecting an iterator into a `BTreeMap`.
* Identifier-pool indices inside a raw `CompiledModule` are inlined: a raw
  handle stores the name string itself instead of an index into the module's
  identifier table (the Rust code only ever dereferences such indices).
* Rust panics (`panic!`, `assert_eq!`, `unwrap`) abort the build; fallible
  loader code therefore returns `Except BuildError`.  The `unwrap_or_else`
  sites that print a `PackageAnalyzerError::MissingKey` propagate that error.
* Out-of-range raw-pool indexing (which would panic in Rust) is modelled with
  `List.getD` and a default element; none of the verified properties depend
  on out-of-range raw indices.
* Deserialization of module byte blobs belongs to the external
  `move-binary-format` crate; packages are supplied with their modules
  already deserialized.
-/

namespace MovePA

/-- Printed form of a Sui `ObjectID` / Move `AccountAddress`. -/
abbrev Address := String

abbrev PackageIndex := Nat
abbrev ModuleIndex := Nat
abbrev StructIndex := Nat
abbrev FunctionIndex := Nat
abbrev IdentifierIndex := Nat

/-- `BTreeMap::get` on an association list: first entry with the given key. -/
def lookupKV {κ α : Type} [DecidableEq κ] (m : List (κ × α)) (k : κ) : Option α :=
  (m.find? (fun p => decide (p.1 = k))).map (fun p => p.2)

/-- Collecting an iterator of entries into a `BTreeMap`: on duplicate keys the
last entry wins, so reverse the list before the first-match `lookupKV`. -/
def collectMap {κ α : Type} (l : List (κ × α)) : List (κ × α) := l.reverse

/-- Raw module handle (`file_format::ModuleHandle`): declaring address and name. -/
structure ModuleHandle where
  address : Address
  name : String
deriving Repr, DecidableEq, Inhabited

/-- Raw struct type parameter (`file_format::StructTypeParameter`). -/
structure StructTypeParameter where
  constraints : Nat
  is_phantom : Bool
deriving Repr, DecidableEq, Inhabited

/-- Raw struct handle (`file_format::StructHandle`). -/
structure StructHandle where
  module : Nat
  name : String
  abilities : Nat
  type_parameters : List StructTypeParameter
deriving Repr, DecidableEq, Inhabited

/-- Raw signature token (`file_format::SignatureToken`).  `Signer` stands for
the token shapes that the loader's `make_type` rejects with a panic. -/
inductive SignatureToken where
  | Bool
  | U8
  | U16
  | U32
  | U64
  | U128
  | U256
  | Address
  | Signer
  | Vector (inner : SignatureToken)
  | Struct (handle : Nat)
  | StructInstantiation (handle : Nat) (args : List SignatureToken)
  | Reference (inner : SignatureToken)
  | MutableReference (inner : SignatureToken)
  | TypeParameter (idx : Nat)
deriving Repr

instance : Inhabited SignatureToken := ⟨.Bool⟩

/-- Raw field declaration (`file_format::FieldDefinition`). -/
structure FieldDefinition where
  name : String
  signature : SignatureToken
deriving Repr, Inhabited

/-- Raw struct field information (`file_format::StructFieldInformation`). -/
inductive StructFieldInformation where
  | Native
  | Declared (fields : List FieldDefinition)
deriving Repr

instance : Inhabited StructFieldInformation := ⟨.Native⟩

/-- Raw struct definition (`file_format::StructDefinition`). -/
structure StructDefinition where
  struct_handle : Nat
  field_information : StructFieldInformation
deriving Repr, Inhabited

/-- Raw function handle (`file_format::FunctionHandle`); `parameters` and
`return_` index into the module's signature pool. -/
structure FunctionHandle where
  module : Nat
  name : String
  parameters : Nat
  return_ : Nat
  type_parameters : List Nat
deriving Repr, Inhabited

/-- Function visibility (`file_format::Visibility`). -/
inductive Visibility where
  | Private
  | Friend
  | Public
deriving Repr, DecidableEq, Inhabited

/-- Raw bytecode (`file_format::Bytecode`).  The `...Deprecated` global-storage
opcodes are the ones the loader's catch-all arm rejects with a panic. -/
inductive MoveBytecode where
  | Nop
  | Pop
  | Ret
  | BrTrue (code_offset : Nat)
  | BrFalse (code_offset : Nat)
  | Branch (code_offset : Nat)
  | LdConst (idx : Nat)
  | LdTrue
  | LdFalse
  | LdU8 (v : Nat)
  | LdU16 (v : Nat)
  | LdU32 (v : Nat)
  | LdU64 (v : Nat)
  | LdU128 (v : Nat)
  | LdU256 (v : Nat)
  | CastU8
  | CastU16
  | CastU32
  | CastU64
  | CastU128
  | CastU256
  | Add
  | Sub
  | Mul
  | Mod
  | Div
  | BitOr
  | BitAnd
  | Xor
  | Or
  | And
  | Not
  | Eq
  | Neq
  | Lt
  | Gt
  | Le
  | Ge
  | Shl
  | Shr
  | Abort
  | CopyLoc (idx : Nat)
  | MoveLoc (idx : Nat)
  | StLoc (idx : Nat)
  | Call (idx : Nat)
  | CallGeneric (idx : Nat)
  | Pack (idx : Nat)
  | PackGeneric (idx : Nat)
  | Unpack (idx : Nat)
  | UnpackGeneric (idx : Nat)
  | MutBorrowLoc (idx : Nat)
  | ImmBorrowLoc (idx : Nat)
  | MutBorrowField (idx : Nat)
  | MutBorrowFieldGeneric (idx : Nat)
  | ImmBorrowField (idx : Nat)
  | ImmBorrowFieldGeneric (idx : Nat)
  | ReadRef
  | WriteRef
  | FreezeRef
  | VecPack (sig : Nat) (count : Nat)
  | VecLen (sig : Nat)
  | VecImmBorrow (sig : Nat)
  | VecMutBorrow (sig : Nat)
  | VecPushBack (sig : Nat)
  | VecPopBack (sig : Nat)
  | VecUnpack (sig : Nat) (count : Nat)
  | VecSwap (sig : Nat)
  | ExistsDeprecated (idx : Nat)
  | ExistsGenericDeprecated (idx : Nat)
  | MoveFromDeprecated (idx : Nat)
  | MoveFromGenericDeprecated (idx : Nat)
  | MoveToDeprecated (idx : Nat)
  | MoveToGenericDeprecated (idx : Nat)
  | MutBorrowGlobalDeprecated (idx : Nat)
  | MutBorrowGlobalGenericDeprecated (idx : Nat)
  | ImmBorrowGlobalDeprecated (idx : Nat)
  | ImmBorrowGlobalGenericDeprecated (idx : Nat)
deriving Repr

instance : Inhabited MoveBytecode := ⟨.Nop⟩

/-- Raw code unit (`file_format::CodeUnit`); `locals` indexes the signature pool. -/
structure CodeUnit where
  locals : Nat
  code : List MoveBytecode
deriving Repr, Inhabited

/-- Raw function definition (`file_format::FunctionDefinition`). -/
structure FunctionDefinition where
  function : Nat
  visibility : Visibility
  is_entry : Bool
  code : Option CodeUnit
deriving Repr, Inhabited

/-- Raw function instantiation (`file_format::FunctionInstantiation`). -/
structure FunctionInstantiation where
  handle : Nat
  type_parameters : Nat
deriving Repr, Inhabited

/-- Raw struct-def instantiation (`file_format::StructDefInstantiation`);
the Rust field `def` is spelled `def_idx` (keyword). -/
structure StructDefInstantiation where
  def_idx : Nat
  type_parameters : Nat
deriving Repr, Inhabited

/-- Raw field handle (`file_format::FieldHandle`): owner struct definition and
positional field offset. -/
structure FieldHandle where
  owner : Nat
  field : Nat
deriving Repr, Inhabited

/-- Raw field instantiation (`file_format::FieldInstantiation`). -/
structure FieldInstantiation where
  handle : Nat
  type_parameters : Nat
deriving Repr, Inhabited

/-- A deserialized `move_binary_format::CompiledModule`, restricted to the
tables the loader reads.  The constant pool keeps only each constant's type
(the loader never reinterprets the raw bytes). -/
structure CompiledModule where
  module_handles : List ModuleHandle
  self_module_handle_idx : Nat
  struct_handles : List StructHandle
  struct_defs : List StructDefinition
  function_handles : List FunctionHandle
  function_defs : List FunctionDefinition
  signatures : List (List SignatureToken)
  constant_pool : List SignatureToken
  function_instantiations : List FunctionInstantiation
  struct_def_instantiations : List StructDefInstantiation
  field_handles : List FieldHandle
  field_instantiations : List FieldInstantiation
deriving Repr, Inhabited

/-- `CompiledModule::self_id()`: the `(address, name)` of the module's own
module handle. -/
def CompiledModule.self_id (m : CompiledModule) : Address × String :=
  let h := m.module_handles.getD m.self_module_handle_idx default
  (h.address, h.name)

/-- Linkage-table value (`sui_types::move_package::UpgradeInfo`). -/
structure UpgradeInfo where
  upgraded_id : Address
deriving Repr, DecidableEq, Inhabited

/-- A `sui_types::move_package::MovePackage`, restricted to what the loader
reads.  `serialized_module_map` is given with its modules already
deserialized, in the map's iteration order. -/
structure MovePackage where
  id : Address
  version : Nat
  serialized_module_map : List (String × CompiledModule)
  type_origin_map : List ((String × String) × Address)
  linkage_table : List (Address × UpgradeInfo)
deriving Repr, Inhabited

/-- Build-time failure.  `missingKey` is `PackageAnalyzerError::MissingKey`
(the loader's panic sites print it together with the offending key);
`panicked` stands for every other `panic!` / `assert_eq!` / `unwrap` abort. -/
inductive BuildError where
  | missingKey (key : String)
  | panicked (msg : String)
deriving Repr, DecidableEq

instance : Inhabited BuildError := ⟨.panicked ""⟩

/-- `Option::unwrap`. -/
def unwrapOpt {α : Type} : Option α → Except BuildError α
  | some a => .ok a
  | none => .error (.panicked "unwrap on None")

/-- The resolved type tree (`move_model::Type`; `Type` is reserved in Lean). -/
inductive MType where
  | Bool
  | U8
  | U16
  | U32
  | U64
  | U128
  | U256
  | Address
  | Vector (inner : MType)
  | Struct (idx : StructIndex)
  | StructInstantiation (idx : StructIndex) (args : List MType)
  | Reference (inner : MType)
  | MutableReference (inner : MType)
  | TypeParameter (idx : Nat)
deriving Repr

instance : Inhabited MType := ⟨.Bool⟩

/-- Resolved field reference (`move_model::FieldRef`). -/
structure FieldRef where
  struct_idx : StructIndex
  field_idx : Nat
deriving Repr, Inhabited

/-- Resolved bytecode (`move_model::Bytecode`): symbolic operands rewritten to
global indices. -/
inductive Bytecode where
  | Nop
  | Pop
  | Ret
  | BrTrue (code_offset : Nat)
  | BrFalse (code_offset : Nat)
  | Branch (code_offset : Nat)
  | LdConst (idx : Nat)
  | LdTrue
  | LdFalse
  | LdU8 (v : Nat)
  | LdU16 (v : Nat)
  | LdU32 (v : Nat)
  | LdU64 (v : Nat)
  | LdU128 (v : Nat)
  | LdU256 (v : Nat)
  | CastU8
  | CastU16
  | CastU32
  | CastU64
  | CastU128
  | CastU256
  | Add
  | Sub
  | Mul
  | Mod
  | Div
  | BitOr
  | BitAnd
  | Xor
  | Or
  | And
  | Not
  | Eq
  | Neq
  | Lt
  | Gt
  | Le
  | Ge
  | Shl
  | Shr
  | Abort
  | CopyLoc (idx : Nat)
  | MoveLoc (idx : Nat)
  | StLoc (idx : Nat)
  | Call (idx : FunctionIndex)
  | CallGeneric (idx : FunctionIndex) (type_params : List MType)
  | Pack (idx : StructIndex)
  | PackGeneric (idx : StructIndex) (type_params : List MType)
  | Unpack (idx : StructIndex)
  | UnpackGeneric (idx : StructIndex) (type_params : List MType)
  | MutBorrowLoc (idx : Nat)
  | ImmBorrowLoc (idx : Nat)
  | MutBorrowField (fr : FieldRef)
  | MutBorrowFieldGeneric (fr : FieldRef) (type_params : List MType)
  | ImmBorrowField (fr : FieldRef)
  | ImmBorrowFieldGeneric (fr : FieldRef) (type_params : List MType)
  | ReadRef
  | WriteRef
  | FreezeRef
  | VecPack (t : MType) (count : Nat)
  | VecLen (t : MType)
  | VecImmBorrow (t : MType)
  | VecMutBorrow (t : MType)
  | VecPushBack (t : MType)
  | VecPopBack (t : MType)
  | VecUnpack (t : MType) (count : Nat)
  | VecSwap (t : MType)
deriving Repr

instance : Inhabited Bytecode := ⟨.Nop⟩

/-- Resolved code (`move_model::Code`). -/
structure Code where
  locals : List MType
  code : List Bytecode
deriving Repr, Inhabited

/-- Resolved constant (`move_model::Constant`): a type plus the raw constant
pool slot. -/
structure Constant where
  type_ : MType
  constant : Nat
deriving Repr, Inhabited

/-- Resolved field (`move_model::Field`). -/
structure Field where
  name : IdentifierIndex
  type_ : MType
deriving Repr, Inhabited

/-- A package as known in the `GlobalEnv` (`move_model::Package`). -/
structure Package where
  self_idx : PackageIndex
  id : Address
  package : Option MovePackage
  version : Option Nat
  type_origin : List ((String × String) × Address)
  modules : List ModuleIndex
deriving Repr, Inhabited

/-- A module as known in the `GlobalEnv` (`move_model::Module`). -/
structure Module where
  self_idx : ModuleIndex
  package : PackageIndex
  module : Option CompiledModule
  name : IdentifierIndex
  module_id : Address × String
  dependencies : List ModuleIndex
  structs : List StructIndex
  functions : List FunctionIndex
  constants : List Constant
deriving Repr, Inhabited

/-- A struct as known in the `GlobalEnv` (`move_model::Struct`). -/
structure Struct where
  self_idx : StructIndex
  package : PackageIndex
  module : ModuleIndex
  name : IdentifierIndex
  def_idx : Nat
  abilities : Nat
  type_parameters : List StructTypeParameter
  fields : List Field
deriving Repr, Inhabited

/-- A function as known in the `GlobalEnv` (`move_model::Function`). -/
structure Function where
  self_idx : FunctionIndex
  package : PackageIndex
  module : ModuleIndex
  name : IdentifierIndex
  def_idx : Nat
  type_parameters : List Nat
  parameters : List MType
  returns : List MType
  visibility : Visibility
  is_entry : Bool
  code : Option Code
deriving Repr, Inhabited

/-- The immutable aggregate of all pools and maps (`global_env::GlobalEnv`). -/
structure GlobalEnv where
  packages : List Package
  modules : List Module
  functions : List Function
  structs : List Struct
  identifiers : List String
  package_map : List (Address × PackageIndex)
  module_map : List (String × ModuleIndex)
  function_map : List (String × FunctionIndex)
  struct_map : List (String × StructIndex)
  identifier_map : List (String × IdentifierIndex)
deriving Repr, Inhabited

/-- Intern table for identifiers (`loader::IdentifierMap`). -/
structure IdentifierMap where
  identifiers : List String
  identifier_map : List (String × IdentifierIndex)
deriving Repr, Inhabited

/-- `IdentifierMap::new`. -/
def IdentifierMap.new : IdentifierMap := ⟨[], []⟩

/-- `IdentifierMap::get_identifier_idx`: intern an identifier, returning its
index and the updated table (the Rust method mutates `self`). -/
def IdentifierMap.get_identifier_idx (m : IdentifierMap) (ident : String) :
    IdentifierIndex × IdentifierMap :=
  match lookupKV m.identifier_map ident with
  | some idx => (idx, m)
  | none =>
    let idx := m.identifiers.length
    (idx, ⟨m.identifiers ++ [ident], (ident, idx) :: m.identifier_map⟩)

/-- `IdentifierMap::get_identifier` (indexing panics are never exercised). -/
def IdentifierMap.get_identifier (m : IdentifierMap) (idx : IdentifierIndex) : String :=
  m.identifiers.getD idx ""

/-- Modelled from the spec: `model/compiled_module_util.rs` is not among the
provided sources.  Per §4.2 step 1, a struct reference's `(module_name,
struct_name)` pair is read off the raw struct handle (through its module
handle). -/
def module_struct_name_from_handle (m : CompiledModule) (idx : Nat) : String × String :=
  let sh := m.struct_handles.getD idx default
  let mh := m.module_handles.getD sh.module default
  (mh.name, sh.name)

/-- Modelled from the spec: the struct's declaring address "as recorded in the
raw handle" (§4.2 step 1) is the raw handle's module-handle address. -/
def get_package_from_struct_handle (m : CompiledModule) (idx : Nat) : Address :=
  let sh := m.struct_handles.getD idx default
  (m.module_handles.getD sh.module default).address

/-- Modelled from the spec: the name pair recovered from a defining struct
declaration goes through the declaration's struct handle. -/
def module_struct_name_from_def (m : CompiledModule) (def_idx : Nat) : String × String :=
  module_struct_name_from_handle m (m.struct_defs.getD def_idx default).struct_handle

/-- Modelled from the spec: declaring address of a struct definition, through
its struct handle. -/
def get_package_from_struct_def (m : CompiledModule) (def_idx : Nat) : Address :=
  get_package_from_struct_handle m (m.struct_defs.getD def_idx default).struct_handle

/-- Modelled from the spec: a function reference's `(module_name, func_name)`
pair is read off the raw function handle (through its module handle). -/
def module_function_name_from_handle (m : CompiledModule) (idx : Nat) : String × String :=
  let fh := m.function_handles.getD idx default
  let mh := m.module_handles.getD fh.module default
  (mh.name, fh.name)

/-- Modelled from the spec: the callee handle's declaring address, read off the
raw function handle's module handle. -/
def get_package_from_function_handle (m : CompiledModule) (idx : Nat) : Address :=
  let fh := m.function_handles.getD idx default
  (m.module_handles.getD fh.module default).address

/-- Modelled from the spec: the name pair recovered from a defining function
declaration goes through the declaration's function handle. -/
def module_function_name_from_def (m : CompiledModule) (def_idx : Nat) : String × String :=
  module_function_name_from_handle m (m.function_defs.getD def_idx default).function

/-- `loader::get_value`: map lookup whose failure is
`PackageAnalyzerError::MissingKey`. -/
def get_value {α : Type} (key : String) (map : List (String × α)) : Except BuildError α :=
  match lookupKV map key with
  | some v => .ok v
  | none => .error (.missingKey key)

/-- `loader::TypeBuilder`: packages plus the canonical struct map. -/
structure TypeBuilder where
  packages : List Package
  struct_map : List (String × StructIndex)
deriving Repr, Inhabited

/-- `TypeBuilder::get_struct_idx`: the upgrade-aware struct resolution.
Type-origin override first, then linkage-table upgrade, then canonical-key
lookup. -/
def TypeBuilder.get_struct_idx (tb : TypeBuilder) (module : Module)
    (struct_handle_idx : Nat) : Except BuildError StructIndex := do
  let compiled_module ← unwrapOpt module.module
  let names := module_struct_name_from_handle compiled_module struct_handle_idx
  let module_name := names.1
  let struct_name := names.2
  let raw_package_id := get_package_from_struct_handle compiled_module struct_handle_idx
  let package := tb.packages.getD module.package default
  let key := (module_name, struct_name)
  let package_id :=
    match lookupKV package.type_origin key with
    | none => raw_package_id
    | some pid => pid
  let mp ← unwrapOpt package.package
  let package_id :=
    match lookupKV mp.linkage_table package_id with
    | none => package_id
    | some upgrade_info => upgrade_info.upgraded_id
  let struct_key := package_id ++ "::" ++ module_name ++ "::" ++ struct_name
  get_value struct_key tb.struct_map

mutual

/-- `TypeBuilder::make_type`: recursively resolve a signature token.  The Rust
panics on a failed struct lookup printing the `MissingKey` error, and on an
unrecognized token shape; both abort the build. -/
def TypeBuilder.make_type (tb : TypeBuilder) (module : Module) :
    SignatureToken → Except BuildError MType
  | .Bool => .ok .Bool
  | .U8 => .ok .U8
  | .U16 => .ok .U16
  | .U32 => .ok .U32
  | .U64 => .ok .U64
  | .U128 => .ok .U128
  | .U256 => .ok .U256
  | .Address => .ok .Address
  | .Vector inner => do
    let t ← tb.make_type module inner
    .ok (.Vector t)
  | .Struct struct_handle_idx => do
    let idx ← tb.get_struct_idx module struct_handle_idx
    .ok (.Struct idx)
  | .StructInstantiation struct_handle_idx type_arguments => do
    let idx ← tb.get_struct_idx module struct_handle_idx
    let args ← tb.make_type_list module type_arguments
    .ok (.StructInstantiation idx args)
  | .Reference inner => do
    let t ← tb.make_type module inner
    .ok (.Reference t)
  | .MutableReference inner => do
    let t ← tb.make_type module inner
    .ok (.MutableReference t)
  | .TypeParameter idx => .ok (.TypeParameter idx)
  | .Signer => .error (.panicked "Invalid type found")

/-- The `.iter().map(make_type)` pattern over a token list. -/
def TypeBuilder.make_type_list (tb : TypeBuilder) (module : Module) :
    List SignatureToken → Except BuildError (List MType)
  | [] => .ok []
  | t :: ts => do
    let x ← tb.make_type module t
    let xs ← tb.make_type_list module ts
    .ok (x :: xs)

end

/-- `loader::get_function_key_from_handle`: function-symbol resolution.  An
intra-package callee (handle address equal to the module's own self address)
is pinned to the calling package's own id; otherwise only the linkage table
rewrites the address.  The type-origin table is never consulted.  (The Rust
`package.package.unwrap()` never fails during a build; the `none` branch is
never exercised.) -/
def get_function_key_from_handle (func_handle_idx : Nat)
    (compiled_module : CompiledModule) (package : Package) : String :=
  let names := module_function_name_from_handle compiled_module func_handle_idx
  let module_name := names.1
  let func_name := names.2
  let module_id := get_package_from_function_handle compiled_module func_handle_idx
  let package_id :=
    if module_id = compiled_module.self_id.1 then
      -- do not relocate calls inside the package
      package.id
    else
      match package.package with
      | none => module_id
      | some mp =>
        match lookupKV mp.linkage_table module_id with
        | none => module_id
        | some upgrade_info => upgrade_info.upgraded_id
  package_id ++ "::" ++ module_name ++ "::" ++ func_name

/-- `loader::get_struct_key_from_def`: canonical key of a struct referenced by
definition index (Pack/Unpack/field borrows).  Applies the type-origin
override only; the linkage table is not consulted. -/
def get_struct_key_from_def (struct_def_idx : Nat)
    (compiled_module : CompiledModule) (package : Package) : String :=
  let names := module_struct_name_from_def compiled_module struct_def_idx
  let module_name := names.1
  let struct_name := names.2
  let key := (module_name, struct_name)
  let raw_package_id := get_package_from_struct_def compiled_module struct_def_idx
  let package_id :=
    match lookupKV package.type_origin key with
    | none => raw_package_id
    | some pid => pid
  package_id ++ "::" ++ module_name ++ "::" ++ struct_name

/-- `loader::load_packages`, entity part: wrap each raw package, assigning
consecutive `self_idx` values (`self_idx` is the position counter). -/
def load_packages_rec (self_idx : Nat) : List MovePackage → List Package
  | [] => []
  | package :: rest =>
    { self_idx := self_idx
      id := package.id
      package := some package
      version := some package.version
      type_origin := package.type_origin_map
      modules := [] } :: load_packages_rec (self_idx + 1) rest

/-- `loader::load_packages`, map part: `(package.id, idx)` entries. -/
def package_map_entries (idx : Nat) : List Package → List (Address × PackageIndex)
  | [] => []
  | p :: rest => (p.id, idx) :: package_map_entries (idx + 1) rest

/-- `loader::load_packages`. -/
def load_packages (packages : List MovePackage) :
    List Package × List (Address × PackageIndex) :=
  let packages := load_packages_rec 0 packages
  (packages, collectMap (package_map_entries 0 packages))

/-- `loader::load_modules`, phase 1, inner loop: one package's deserialized
modules.  The `assert_eq!(name, module_name)` is the module-name integrity
check. -/
def load_modules_entries (identifier_map : IdentifierMap) (pkg_idx : Nat)
    (package_id : Address) :
    List (String × CompiledModule) → Except BuildError (List Module × IdentifierMap)
  | [] => .ok ([], identifier_map)
  | (name, m) :: rest => do
    let module_id := m.self_id
    let module_name := module_id.2
    if name = module_name then
      let interned := identifier_map.get_identifier_idx module_name
      let mod : Module :=
        { self_idx := 0
          package := pkg_idx
          module := some m
          name := interned.1
          module_id := module_id
          dependencies := []
          structs := []
          functions := []
          constants := [] }
      let rec_result ← load_modules_entries interned.2 pkg_idx package_id rest
      .ok (mod :: rec_result.1, rec_result.2)
    else
      .error (.panicked ("Mismatch in package " ++ package_id ++ ": module name " ++ name))

/-- `loader::load_modules`, phase 1, outer loop over the package pool
(`pkg_idx` is the enumeration counter). -/
def load_modules_all (identifier_map : IdentifierMap) (pkg_idx : Nat) :
    List Package → Except BuildError (List Module × IdentifierMap)
  | [] => .ok ([], identifier_map)
  | package :: rest => do
    let mp ← unwrapOpt package.package
    let head ← load_modules_entries identifier_map pkg_idx package.id
      mp.serialized_module_map
    let tail ← load_modules_all head.2 (pkg_idx + 1) rest
    .ok (head.1 ++ tail.1, tail.2)

/-- `loader::load_modules`, phase 2: assign `self_idx`, push each module into
its package's module list, re-check the module name, emit map entries. -/
def load_modules_finalize (identifier_map : IdentifierMap) :
    List Module → Nat → List Package →
    Except BuildError (List Module × List (String × ModuleIndex) × List Package)
  | [], _, packages => .ok ([], [], packages)
  | module :: rest, idx, packages => do
    let module := { module with self_idx := idx }
    let package := packages.getD module.package default
    let packages := packages.set module.package
      { package with modules := package.modules ++ [idx] }
    let module_name := identifier_map.get_identifier module.name
    if module_name = module.module_id.2 then
      let key := package.id ++ "::" ++ module_name
      let tail ← load_modules_finalize identifier_map rest (idx + 1) packages
      .ok (module :: tail.1, (key, idx) :: tail.2.1, tail.2.2)
    else
      .error (.panicked ("Mismatch in package " ++ package.id ++ ": module name " ++ module_name))

/-- `loader::load_modules`. -/
def load_modules (identifier_map : IdentifierMap) (packages : List Package) :
    Except BuildError (List Module × List (String × ModuleIndex) × List Package × IdentifierMap) := do
  let phase1 ← load_modules_all identifier_map 0 packages
  let phase2 ← load_modules_finalize phase1.2 phase1.1 0 packages
  .ok (phase2.1, collectMap phase2.2.1, phase2.2.2, phase1.2)

/-- `loader::load_structs`, phase 1, inner loop over a module's struct
definitions (`def_idx` is the enumeration counter). -/
def load_structs_defs (identifier_map : IdentifierMap) (pkg_idx mod_idx : Nat)
    (cm : CompiledModule) (def_idx : Nat) :
    List StructDefinition → List Struct × IdentifierMap
  | [] => ([], identifier_map)
  | struct_def :: rest =>
    let struct_handle := cm.struct_handles.getD struct_def.struct_handle default
    let struct_name := struct_handle.name
    let interned := identifier_map.get_identifier_idx struct_name
    let s : Struct :=
      { self_idx := 0
        package := pkg_idx
        module := mod_idx
        name := interned.1
        def_idx := def_idx
        abilities := struct_handle.abilities
        type_parameters := struct_handle.type_parameters
        fields := [] }
    let tail := load_structs_defs interned.2 pkg_idx mod_idx cm (def_idx + 1) rest
    (s :: tail.1, tail.2)

/-- `loader::load_structs`, phase 1, outer loop over the module pool
(`mod_idx` is the enumeration counter); re-checks the module name. -/
def load_structs_all (identifier_map : IdentifierMap) (mod_idx : Nat) :
    List Module → Except BuildError (List Struct × IdentifierMap)
  | [] => .ok ([], identifier_map)
  | module :: rest => do
    let compiled_module ← unwrapOpt module.module
    if identifier_map.get_identifier module.name = module.module_id.2 then
      let head := load_structs_defs identifier_map module.package mod_idx
        compiled_module 0 compiled_module.struct_defs
      let tail ← load_structs_all head.2 (mod_idx + 1) rest
      .ok (head.1 ++ tail.1, tail.2)
    else
      .error (.panicked "Mismatch in module name")

/-- `loader::load_structs`, phase 2: assign `self_idx`, push each struct into
its module's struct list, check both names against the defining declaration,
emit canonical map entries. -/
def load_structs_finalize (identifier_map : IdentifierMap) (packages : List Package) :
    List Struct → Nat → List Module →
    Except BuildError (List Struct × List (String × StructIndex) × List Module)
  | [], _, modules => .ok ([], [], modules)
  | struct_ :: rest, idx, modules => do
    let struct_ := { struct_ with self_idx := idx }
    let module := modules.getD struct_.module default
    let modules := modules.set struct_.module
      { module with structs := module.structs ++ [idx] }
    let package_id := (packages.getD struct_.package default).id
    let compiled_module ← unwrapOpt module.module
    let names := module_struct_name_from_def compiled_module struct_.def_idx
    let module_name := identifier_map.get_identifier module.name
    let struct_name := identifier_map.get_identifier struct_.name
    if module_name = names.1 then
      if struct_name = names.2 then
        let key := package_id ++ "::" ++ module_name ++ "::" ++ struct_name
        let tail ← load_structs_finalize identifier_map packages rest (idx + 1) modules
        .ok (struct_ :: tail.1, (key, idx) :: tail.2.1, tail.2.2)
      else
        .error (.panicked "Mismatch in struct name")
    else
      .error (.panicked "Mismatch in module name")

/-- `loader::load_structs`. -/
def load_structs (identifier_map : IdentifierMap) (modules : List Module)
    (packages : List Package) :
    Except BuildError (List Struct × List (String × StructIndex) × List Module × IdentifierMap) := do
  let phase1 ← load_structs_all identifier_map 0 modules
  let phase2 ← load_structs_finalize phase1.2 packages phase1.1 0 modules
  .ok (phase2.1, collectMap phase2.2.1, phase2.2.2, phase1.2)

/-- `loader::load_fields`, inner loop over one struct's declared fields. -/
def load_field_list (identifier_map : IdentifierMap) (tb : TypeBuilder) (module : Module) :
    List FieldDefinition → Except BuildError (List Field × IdentifierMap)
  | [] => .ok ([], identifier_map)
  | field :: rest => do
    let interned := identifier_map.get_identifier_idx field.name
    let t ← tb.make_type module field.signature
    let tail ← load_field_list interned.2 tb module rest
    .ok ({ name := interned.1, type_ := t } :: tail.1, tail.2)

/-- `loader::load_fields`, one struct: a native field set aborts the build. -/
def load_fields_one (identifier_map : IdentifierMap) (tb : TypeBuilder)
    (modules : List Module) (struct_ : Struct) :
    Except BuildError (Struct × IdentifierMap) := do
  let module := modules.getD struct_.module default
  let compiled_module ← unwrapOpt module.module
  let struct_def := compiled_module.struct_defs.getD struct_.def_idx default
  match struct_def.field_information with
  | .Declared fields => do
    let loaded ← load_field_list identifier_map tb module fields
    .ok ({ struct_ with fields := loaded.1 }, loaded.2)
  | .Native => .error (.panicked "Found native field")

/-- `loader::load_fields`. -/
def load_fields (structs : List Struct) (identifier_map : IdentifierMap)
    (tb : TypeBuilder) (modules : List Module) :
    Except BuildError (List Struct × IdentifierMap) :=
  match structs with
  | [] => .ok ([], identifier_map)
  | struct_ :: rest => do
    let head ← load_fields_one identifier_map tb modules struct_
    let tail ← load_fields rest head.2 tb modules
    .ok (head.1 :: tail.1, tail.2)

/-- `loader::load_constants`, inner loop over a module's constant pool
(`const_idx` is the enumeration counter; only each constant's type is read). -/
def load_constant_list (tb : TypeBuilder) (module : Module) (const_idx : Nat) :
    List SignatureToken → Except BuildError (List Constant)
  | [] => .ok []
  | ctype :: rest => do
    let t ← tb.make_type module ctype
    let tail ← load_constant_list tb module (const_idx + 1) rest
    .ok ({ type_ := t, constant := const_idx } :: tail)

/-- `loader::load_constants`. -/
def load_constants (tb : TypeBuilder) : List Module → Except BuildError (List Module)
  | [] => .ok []
  | module :: rest => do
    let compiled_module ← unwrapOpt module.module
    let cs ← load_constant_list tb module 0 compiled_module.constant_pool
    let tail ← load_constants tb rest
    .ok ({ module with constants := cs } :: tail)

/-- `loader::load_functions`, phase 1, inner loop over a module's function
definitions (`def_idx` is the enumeration counter).  The final `assert_eq!`
re-reads the interned name. -/
def load_function_defs (identifier_map : IdentifierMap) (tb : TypeBuilder)
    (module : Module) (cm : CompiledModule) (def_idx : Nat) :
    List FunctionDefinition → Except BuildError (List Function × IdentifierMap)
  | [] => .ok ([], identifier_map)
  | func_def :: rest => do
    let func_handle := cm.function_handles.getD func_def.function default
    let parameters ← tb.make_type_list module (cm.signatures.getD func_handle.parameters [])
    let returns ← tb.make_type_list module (cm.signatures.getD func_handle.return_ [])
    let func_name := func_handle.name
    let interned := identifier_map.get_identifier_idx func_name
    if interned.2.get_identifier interned.1 = func_name then
      let f : Function :=
        { self_idx := 0
          package := module.package
          module := module.self_idx
          name := interned.1
          def_idx := def_idx
          type_parameters := func_handle.type_parameters
          parameters := parameters
          returns := returns
          visibility := func_def.visibility
          is_entry := func_def.is_entry
          code := none }
      let tail ← load_function_defs interned.2 tb module cm (def_idx + 1) rest
      .ok (f :: tail.1, tail.2)
    else
      .error (.panicked "Mismatch in function name")

/-- `loader::load_functions`, phase 1, outer loop over the module pool. -/
def load_functions_all (identifier_map : IdentifierMap) (tb : TypeBuilder) :
    List Module → Except BuildError (List Function × IdentifierMap)
  | [] => .ok ([], identifier_map)
  | module :: rest => do
    let compiled_module ← unwrapOpt module.module
    let head ← load_function_defs identifier_map tb module compiled_module 0
      compiled_module.function_defs
    let tail ← load_functions_all head.2 tb rest
    .ok (head.1 ++ tail.1, tail.2)

/-- `loader::load_functions`, phase 2: assign `self_idx`, push each function
into its module's function list, check both names against the defining
declaration, emit canonical map entries. -/
def load_functions_finalize (identifier_map : IdentifierMap) (tb : TypeBuilder) :
    List Function → Nat → List Module →
    Except BuildError (List Function × List (String × FunctionIndex) × List Module)
  | [], _, modules => .ok ([], [], modules)
  | function :: rest, idx, modules => do
    let package_id := (tb.packages.getD function.package default).id
    let function := { function with self_idx := idx }
    let module := modules.getD function.module default
    let modules := modules.set function.module
      { module with functions := module.functions ++ [idx] }
    let compiled_module ← unwrapOpt module.module
    let names := module_function_name_from_def compiled_module function.def_idx
    let module_name := identifier_map.get_identifier module.name
    let function_name := identifier_map.get_identifier function.name
    if module_name = names.1 then
      if function_name = names.2 then
        let key := package_id ++ "::" ++ module_name ++ "::" ++ function_name
        let tail ← load_functions_finalize identifier_map tb rest (idx + 1) modules
        .ok (function :: tail.1, (key, idx) :: tail.2.1, tail.2.2)
      else
        .error (.panicked "Mismatch in function name")
    else
      .error (.panicked "Mismatch in module name")

/-- `loader::load_functions`. -/
def load_functions (identifier_map : IdentifierMap) (modules : List Module)
    (tb : TypeBuilder) :
    Except BuildError (List Function × List (String × FunctionIndex) × List Module × IdentifierMap) := do
  let phase1 ← load_functions_all identifier_map tb modules
  let phase2 ← load_functions_finalize phase1.2 tb phase1.1 0 modules
  .ok (phase2.1, collectMap phase2.2.1, phase2.2.2, phase1.2)

/-- `loader::load_code`, single raw bytecode: the big `match` rewriting
module-local operands into global indices.  The `get_from_map!` macro panics
printing the `MissingKey` error; modelled as propagating it. -/
def load_bytecode (tb : TypeBuilder) (function_map : List (String × FunctionIndex))
    (module : Module) (compiled_module : CompiledModule) :
    MoveBytecode → Except BuildError Bytecode
  | .Nop => .ok .Nop
  | .Pop => .ok .Pop
  | .Ret => .ok .Ret
  | .BrTrue code_offset => .ok (.BrTrue code_offset)
  | .BrFalse code_offset => .ok (.BrFalse code_offset)
  | .Branch code_offset => .ok (.Branch code_offset)
  | .LdConst idx => .ok (.LdConst idx)
  | .LdTrue => .ok .LdTrue
  | .LdFalse => .ok .LdFalse
  | .LdU8 v => .ok (.LdU8 v)
  | .LdU16 v => .ok (.LdU16 v)
  | .LdU32 v => .ok (.LdU32 v)
  | .LdU64 v => .ok (.LdU64 v)
  | .LdU128 v => .ok (.LdU128 v)
  | .LdU256 v => .ok (.LdU256 v)
  | .CastU8 => .ok .CastU8
  | .CastU16 => .ok .CastU16
  | .CastU32 => .ok .CastU32
  | .CastU64 => .ok .CastU64
  | .CastU128 => .ok .CastU128
  | .CastU256 => .ok .CastU256
  | .Add => .ok .Add
  | .Sub => .ok .Sub
  | .Mul => .ok .Mul
  | .Mod => .ok .Mod
  | .Div => .ok .Div
  | .BitOr => .ok .BitOr
  | .BitAnd => .ok .BitAnd
  | .Xor => .ok .Xor
  | .Or => .ok .Or
  | .And => .ok .And
  | .Not => .ok .Not
  | .Eq => .ok .Eq
  | .Neq => .ok .Neq
  | .Lt => .ok .Lt
  | .Gt => .ok .Gt
  | .Le => .ok .Le
  | .Ge => .ok .Ge
  | .Shl => .ok .Shl
  | .Shr => .ok .Shr
  | .Abort => .ok .Abort
  | .CopyLoc idx => .ok (.CopyLoc idx)
  | .MoveLoc idx => .ok (.MoveLoc idx)
  | .StLoc idx => .ok (.StLoc idx)
  | .Call idx => do
    let func_key := get_function_key_from_handle idx compiled_module
      (tb.packages.getD module.package default)
    let func_idx ← get_value func_key function_map
    .ok (.Call func_idx)
  | .CallGeneric idx => do
    let func_inst := compiled_module.function_instantiations.getD idx default
    let func_key := get_function_key_from_handle func_inst.handle compiled_module
      (tb.packages.getD module.package default)
    let func_idx ← get_value func_key function_map
    let type_params ← tb.make_type_list module
      (compiled_module.signatures.getD func_inst.type_parameters [])
    .ok (.CallGeneric func_idx type_params)
  | .Pack idx => do
    let struct_key := get_struct_key_from_def idx compiled_module
      (tb.packages.getD module.package default)
    let struct_idx ← get_value struct_key tb.struct_map
    .ok (.Pack struct_idx)
  | .PackGeneric idx => do
    let struct_inst := compiled_module.struct_def_instantiations.getD idx default
    let struct_key := get_struct_key_from_def struct_inst.def_idx compiled_module
      (tb.packages.getD module.package default)
    let struct_idx ← get_value struct_key tb.struct_map
    let type_params ← tb.make_type_list module
      (compiled_module.signatures.getD struct_inst.type_parameters [])
    .ok (.PackGeneric struct_idx type_params)
  | .Unpack idx => do
    let struct_key := get_struct_key_from_def idx compiled_module
      (tb.packages.getD module.package default)
    let struct_idx ← get_value struct_key tb.struct_map
    .ok (.Unpack struct_idx)
  | .UnpackGeneric idx => do
    let struct_inst := compiled_module.struct_def_instantiations.getD idx default
    let struct_key := get_struct_key_from_def struct_inst.def_idx compiled_module
      (tb.packages.getD module.package default)
    let struct_idx ← get_value struct_key tb.struct_map
    let type_params ← tb.make_type_list module
      (compiled_module.signatures.getD struct_inst.type_parameters [])
    .ok (.UnpackGeneric struct_idx type_params)
  | .MutBorrowLoc idx => .ok (.MutBorrowLoc idx)
  | .ImmBorrowLoc idx => .ok (.ImmBorrowLoc idx)
  | .MutBorrowField idx => do
    let field_handle := compiled_module.field_handles.getD idx default
    let struct_key := get_struct_key_from_def field_handle.owner compiled_module
      (tb.packages.getD module.package default)
    let struct_idx ← get_value struct_key tb.struct_map
    .ok (.MutBorrowField { struct_idx := struct_idx, field_idx := field_handle.field })
  | .MutBorrowFieldGeneric idx => do
    let field_inst := compiled_module.field_instantiations.getD idx default
    let field_handle := compiled_module.field_handles.getD field_inst.handle default
    let struct_key := get_struct_key_from_def field_handle.owner compiled_module
      (tb.packages.getD module.package default)
    let struct_idx ← get_value struct_key tb.struct_map
    let type_params ← tb.make_type_list module
      (compiled_module.signatures.getD field_inst.type_parameters [])
    .ok (.MutBorrowFieldGeneric { struct_idx := struct_idx, field_idx := field_handle.field }
      type_params)
  | .ImmBorrowField idx => do
    let field_handle := compiled_module.field_handles.getD idx default
    let struct_key := get_struct_key_from_def field_handle.owner compiled_module
      (tb.packages.getD module.package default)
    let struct_idx ← get_value struct_key tb.struct_map
    .ok (.ImmBorrowField { struct_idx := struct_idx, field_idx := field_handle.field })
  | .ImmBorrowFieldGeneric idx => do
    let field_inst := compiled_module.field_instantiations.getD idx default
    let field_handle := compiled_module.field_handles.getD field_inst.handle default
    let struct_key := get_struct_key_from_def field_handle.owner compiled_module
      (tb.packages.getD module.package default)
    let struct_idx ← get_value struct_key tb.struct_map
    let type_params ← tb.make_type_list module
      (compiled_module.signatures.getD field_inst.type_parameters [])
    .ok (.ImmBorrowFieldGeneric { struct_idx := struct_idx, field_idx := field_handle.field }
      type_params)
  | .ReadRef => .ok .ReadRef
  | .WriteRef => .ok .WriteRef
  | .FreezeRef => .ok .FreezeRef
  | .VecPack sig count => do
    let t ← tb.make_type module ((compiled_module.signatures.getD sig []).getD 0 default)
    .ok (.VecPack t count)
  | .VecLen sig => do
    let t ← tb.make_type module ((compiled_module.signatures.getD sig []).getD 0 default)
    .ok (.VecLen t)
  | .VecImmBorrow sig => do
    let t ← tb.make_type module ((compiled_module.signatures.getD sig []).getD 0 default)
    .ok (.VecImmBorrow t)
  | .VecMutBorrow sig => do
    let t ← tb.make_type module ((compiled_module.signatures.getD sig []).getD 0 default)
    .ok (.VecMutBorrow t)
  | .VecPushBack sig => do
    let t ← tb.make_type module ((compiled_module.signatures.getD sig []).getD 0 default)
    .ok (.VecPushBack t)
  | .VecPopBack sig => do
    let t ← tb.make_type module ((compiled_module.signatures.getD sig []).getD 0 default)
    .ok (.VecPopBack t)
  | .VecUnpack sig count => do
    let t ← tb.make_type module ((compiled_module.signatures.getD sig []).getD 0 default)
    .ok (.VecUnpack t count)
  | .VecSwap sig => do
    let t ← tb.make_type module ((compiled_module.signatures.getD sig []).getD 0 default)
    .ok (.VecSwap t)
  | .ExistsDeprecated _ => .error (.panicked "Invalid bytecode found")
  | .ExistsGenericDeprecated _ => .error (.panicked "Invalid bytecode found")
  | .MoveFromDeprecated _ => .error (.panicked "Invalid bytecode found")
  | .MoveFromGenericDeprecated _ => .error (.panicked "Invalid bytecode found")
  | .MoveToDeprecated _ => .error (.panicked "Invalid bytecode found")
  | .MoveToGenericDeprecated _ => .error (.panicked "Invalid bytecode found")
  | .MutBorrowGlobalDeprecated _ => .error (.panicked "Invalid bytecode found")
  | .MutBorrowGlobalGenericDeprecated _ => .error (.panicked "Invalid bytecode found")
  | .ImmBorrowGlobalDeprecated _ => .error (.panicked "Invalid bytecode found")
  | .ImmBorrowGlobalGenericDeprecated _ => .error (.panicked "Invalid bytecode found")

/-- `loader::load_code`, instruction-stream loop. -/
def load_bytecodes (tb : TypeBuilder) (function_map : List (String × FunctionIndex))
    (module : Module) (compiled_module : CompiledModule) :
    List MoveBytecode → Except BuildError (List Bytecode)
  | [] => .ok []
  | bc :: rest => do
    let b ← load_bytecode tb function_map module compiled_module bc
    let bs ← load_bytecodes tb function_map module compiled_module rest
    .ok (b :: bs)

/-- `loader::load_code`, one function: a definition without a code unit keeps
`code = none`. -/
def load_code_one (tb : TypeBuilder) (modules : List Module)
    (function_map : List (String × FunctionIndex)) (function : Function) :
    Except BuildError Function := do
  let module := modules.getD function.module default
  let compiled_module ← unwrapOpt module.module
  let func_def := compiled_module.function_defs.getD function.def_idx default
  match func_def.code with
  | none => .ok function
  | some code_unit => do
    let locals ← tb.make_type_list module
      (compiled_module.signatures.getD code_unit.locals [])
    let code ← load_bytecodes tb function_map module compiled_module code_unit.code
    .ok { function with code := some { locals := locals, code := code } }

/-- `loader::load_code`. -/
def load_code (functions : List Function) (tb : TypeBuilder) (modules : List Module)
    (function_map : List (String × FunctionIndex)) :
    Except BuildError (List Function)
  := match functions with
  | [] => .ok []
  | function :: rest => do
    let f ← load_code_one tb modules function_map function
    let fs ← load_code rest tb modules function_map
    .ok (f :: fs)

/-- `loader::build_environment`: the single entry point, staged exactly as the
source (packages → modules → structs → fields → constants → functions →
code), returning the complete environment or the first error. -/
def build_environment (input : List MovePackage) : Except BuildError GlobalEnv := do
  let identifier_map := IdentifierMap.new
  let loaded := load_packages input
  let packages := loaded.1
  let package_map := loaded.2
  let modules_result ← load_modules identifier_map packages
  let modules := modules_result.1
  let module_map := modules_result.2.1
  let packages := modules_result.2.2.1
  let identifier_map := modules_result.2.2.2
  let structs_result ← load_structs identifier_map modules packages
  let structs := structs_result.1
  let struct_map := structs_result.2.1
  let modules := structs_result.2.2.1
  let identifier_map := structs_result.2.2.2
  let type_builder : TypeBuilder := { packages := packages, struct_map := struct_map }
  let fields_result ← load_fields structs identifier_map type_builder modules
  let structs := fields_result.1
  let identifier_map := fields_result.2
  let modules ← load_constants type_builder modules
  let functions_result ← load_functions identifier_map modules type_builder
  let functions := functions_result.1
  let function_map := functions_result.2.1
  let modules := functions_result.2.2.1
  let identifier_map := functions_result.2.2.2
  let functions ← load_code functions type_builder modules function_map
  .ok
    { packages := type_builder.packages
      modules := modules
      functions := functions
      structs := structs
      identifiers := identifier_map.identifiers
      package_map := package_map
      module_map := module_map
      function_map := function_map
      struct_map := type_builder.struct_map
      identifier_map := identifier_map.identifier_map }

/-! Walkers (`walkers.rs`).  The Rust visitors are `FnMut` closures; their
mutable capture is modelled as an explicit state `σ` threaded through the
traversal. -/

/-- `walkers::walk_packages`. -/
def walk_packages {σ : Type} (env : GlobalEnv) (walker : σ → GlobalEnv → Package → σ)
    (init : σ) : σ :=
  env.packages.foldl (fun s package => walker s env package) init

/-- `walkers::walk_modules`. -/
def walk_modules {σ : Type} (env : GlobalEnv) (walker : σ → GlobalEnv → Module → σ)
    (init : σ) : σ :=
  env.modules.foldl (fun s module => walker s env module) init

/-- `walkers::walk_structs`. -/
def walk_structs {σ : Type} (env : GlobalEnv) (walker : σ → GlobalEnv → Struct → σ)
    (init : σ) : σ :=
  env.structs.foldl (fun s struct_ => walker s env struct_) init

/-- `walkers::walk_functions`. -/
def walk_functions {σ : Type} (env : GlobalEnv) (walker : σ → GlobalEnv → Function → σ)
    (init : σ) : σ :=
  env.functions.foldl (fun s func => walker s env func) init

/-- `walkers::walk_bytecodes`: `walk_functions` visiting each instruction of
every function that has code. -/
def walk_bytecodes {σ : Type} (env : GlobalEnv)
    (walker : σ → GlobalEnv → Function → Bytecode → σ) (init : σ) : σ :=
  walk_functions env
    (fun s env func =>
      match func.code with
      | some code => code.code.foldl (fun s bytecode => walker s env func bytecode) s
      | none => s)
    init

/-! Concrete test inputs. -/

/-- The environment of a successful build (`default` is never reached on the
inputs below). -/
def env_of (input : List MovePackage) : GlobalEnv :=
  match build_environment input with
  | .ok env => env
  | .error _ => default

/-- Module `a` of the example package `0xA`: struct `S { x: b::T }`, one
`u64` constant, and `f()` whose code calls `b::g` and branches. -/
def cmA : CompiledModule :=
  { module_handles := [⟨"0xA", "a"⟩, ⟨"0xA", "b"⟩]
    self_module_handle_idx := 0
    struct_handles := [⟨0, "S", 0, []⟩, ⟨1, "T", 0, []⟩]
    struct_defs := [⟨0, .Declared [⟨"x", .Struct 1⟩]⟩]
    function_handles := [⟨0, "f", 0, 0, []⟩, ⟨1, "g", 0, 0, []⟩]
    function_defs := [⟨0, .Public, false, some ⟨0, [.LdConst 0, .Call 1, .Branch 4, .Nop, .Ret]⟩⟩]
    signatures := [[]]
    constant_pool := [.U64]
    function_instantiations := []
    struct_def_instantiations := []
    field_handles := []
    field_instantiations := [] }

/-- Module `b` of the example package `0xA`: struct `T { y: u64 }`, function
`g()` with body `[Ret]`, and native (code-less) function `h`. -/
def cmB : CompiledModule :=
  { module_handles := [⟨"0xA", "b"⟩]
    self_module_handle_idx := 0
    struct_handles := [⟨0, "T", 0, []⟩]
    struct_defs := [⟨0, .Declared [⟨"y", .U64⟩]⟩]
    function_handles := [⟨0, "g", 0, 0, []⟩, ⟨0, "h", 0, 0, []⟩]
    function_defs := [⟨0, .Public, false, some ⟨0, [.Ret]⟩⟩, ⟨1, .Private, false, none⟩]
    signatures := [[]]
    constant_pool := []
    function_instantiations := []
    struct_def_instantiations := []
    field_handles := []
    field_instantiations := [] }

/-- The example input: one package, two modules, a cross-module call and a
cross-module field type. -/
def exInput : List MovePackage :=
  [{ id := "0xA", version := 1, serialized_module_map := [("a", cmA), ("b", cmB)],
     type_origin_map := [], linkage_table := [] }]

/-- The environment built from `exInput`. -/
def exEnv : GlobalEnv := env_of exInput

/-- Version 1 of the upgraded package: address `0xA`, module `m`, struct `S`. -/
def cmOld : CompiledModule :=
  { module_handles := [⟨"0xA", "m"⟩]
    self_module_handle_idx := 0
    struct_handles := [⟨0, "S", 0, []⟩]
    struct_defs := [⟨0, .Declared []⟩]
    function_handles := []
    function_defs := []
    signatures := [[]]
    constant_pool := []
    function_instantiations := []
    struct_def_instantiations := []
    field_handles := []
    field_instantiations := [] }

/-- Version 2 of the upgraded package, stored at `0xB`: the module binary
keeps the original self-address `0xA`; `f()` packs and unpacks `S`. -/
def cmCur : CompiledModule :=
  { module_handles := [⟨"0xA", "m"⟩]
    self_module_handle_idx := 0
    struct_handles := [⟨0, "S", 0, []⟩]
    struct_defs := [⟨0, .Declared []⟩]
    function_handles := [⟨0, "f", 0, 0, []⟩]
    function_defs := [⟨0, .Public, false, some ⟨0, [.Pack 0, .Unpack 0, .Ret]⟩⟩]
    signatures := [[]]
    constant_pool := []
    function_instantiations := []
    struct_def_instantiations := []
    field_handles := []
    field_instantiations := [] }

/-- Upgrade scenario: the v1 package at `0xA` and the v2 package at `0xB`
whose linkage table maps `0xA -> 0xB` and whose type-origin table anchors
`(m, S)` at `0xA`. -/
def c1Input : List MovePackage :=
  [{ id := "0xA", version := 1, serialized_module_map := [("m", cmOld)],
     type_origin_map := [(("m", "S"), "0xA")], linkage_table := [] },
   { id := "0xB", version := 2, serialized_module_map := [("m", cmCur)],
     type_origin_map := [(("m", "S"), "0xA")],
     linkage_table := [("0xA", ⟨"0xB"⟩)] }]

/-- The environment built from `c1Input`. -/
def c1Env : GlobalEnv := env_of c1Input

/-- A module with a dangling struct reference: `S.x` has type `0xB::n::T`,
and no package at `0xB` is part of the input. -/
def cmDangling : CompiledModule :=
  { module_handles := [⟨"0xA", "m"⟩, ⟨"0xB", "n"⟩]
    self_module_handle_idx := 0
    struct_handles := [⟨0, "S", 0, []⟩, ⟨1, "T", 0, []⟩]
    struct_defs := [⟨0, .Declared [⟨"x", .Struct 1⟩]⟩]
    function_handles := []
    function_defs := []
    signatures := [[]]
    constant_pool := []
    function_instantiations := []
    struct_def_instantiations := []
    field_handles := []
    field_instantiations := [] }

/-- Input whose only struct reference has a canonical key absent from every
map. -/
def c2Input : List MovePackage :=
  [{ id := "0xA", version := 1, serialized_module_map := [("m", cmDangling)],
     type_origin_map := [], linkage_table := [] }]

/-- The v2 package of `c1Input` as a loaded `Package` entity. -/
def c1Pkg2 : Package :=
  { self_idx := 1, id := "0xB", package := some (c1Input.getD 1 default),
    version := some 2, type_origin := [(("m", "S"), "0xA")], modules := [1] }

/-- The v2 module of `c1Input` as a loaded `Module` entity. -/
def c1Module : Module :=
  { self_idx := 1, package := 1, module := some cmCur, name := 0,
    module_id := ("0xA", "m"), dependencies := [], structs := [1], functions := [0],
    constants := [] }

/-- Type builder over the two packages of `c1Input`. -/
def c1TB : TypeBuilder :=
  { packages := [default, c1Pkg2],
    struct_map := [("0xB::m::S", 1), ("0xA::m::S", 0)] }

/-- The package of `c2Input` as a loaded `Package` entity. -/
def c2Pkg : Package :=
  { self_idx := 0, id := "0xA", package := some (c2Input.getD 0 default),
    version := some 1, type_origin := [], modules := [0] }

/-- The module of `c2Input` as a loaded `Module` entity. -/
def c2Module : Module :=
  { self_idx := 0, package := 0, module := some cmDangling, name := 0,
    module_id := ("0xA", "m"), dependencies := [], structs := [], functions := [],
    constants := [] }

/-- Type builder over `c2Input`: its struct map has no key for `0xB::n::T`. -/
def c2TB : TypeBuilder :=
  { packages := [c2Pkg], struct_map := [("0xA::m::S", 0)] }

/-- A standalone package wrapper with a non-trivial linkage table. -/
def c3Mp : MovePackage :=
  { id := "0xC", version := 3, serialized_module_map := [],
    type_origin_map := [], linkage_table := [("0xD", ⟨"0xE"⟩)] }

/-- The `Package` entity wrapping `c3Mp`. -/
def c3Pkg : Package :=
  { self_idx := 0, id := "0xC", package := some c3Mp, version := some 3,
    type_origin := [], modules := [] }

/-! Basic lemmas about the association-list maps and the intern table. -/

theorem lookupKV_mem {κ α : Type} [DecidableEq κ] {m : List (κ × α)} {k : κ} {v : α}
    (h : lookupKV m k = some v) : (k, v) ∈ m := by
  unfold lookupKV at h
  cases hf : m.find? (fun p => decide (p.1 = k)) with
  | none => simp [hf] at h
  | some p =>
    simp only [hf, Option.map_some'] at h
    have hm := List.mem_of_find?_eq_some hf
    have hk := List.find?_some hf
    have : p.1 = k := by simpa using hk
    cases p
    simp_all

theorem lookupKV_cons_self {κ α : Type} [DecidableEq κ] (m : List (κ × α)) (k : κ) (v : α) :
    lookupKV ((k, v) :: m) k = some v := by
  simp [lookupKV, List.find?]

theorem lookupKV_cons_ne {κ α : Type} [DecidableEq κ] (m : List (κ × α)) (k k' : κ) (v : α)
    (h : k ≠ k') : lookupKV ((k, v) :: m) k' = lookupKV m k' := by
  simp [lookupKV, List.find?, h]

theorem get?_of_lookup_all {κ α : Type} [DecidableEq κ] {m : List (κ × α)} {P : κ → α → Prop}
    (hall : ∀ p ∈ m, P p.1 p.2) {k : κ} {v : α} (h : lookupKV m k = some v) : P k v := by
  have hm := lookupKV_mem h
  exact hall (k, v) hm

/-- The intern-table invariant: every map entry points at the slot of its own
string. -/
def IdentifierMap.Inv (m : IdentifierMap) : Prop :=
  ∀ p ∈ m.identifier_map, m.identifiers.get? p.2 = some p.1

theorem IdentifierMap.new_inv : IdentifierMap.new.Inv := by
  intro p hp
  simp [IdentifierMap.new] at hp

theorem IdentifierMap.lookup_inv {m : IdentifierMap} (hm : m.Inv) {s : String}
    {i : IdentifierIndex} (h : lookupKV m.identifier_map s = some i) :
    m.identifiers.get? i = some s :=
  hm _ (lookupKV_mem h)

theorem get?_lt_length {α : Type} {l : List α} {i : Nat} {a : α} (h : l.get? i = some a) :
    i < l.length := by
  by_contra hlt
  rw [List.get?_eq_none.mpr (Nat.le_of_not_lt hlt)] at h
  exact Option.noConfusion h

/-- Interning preserves the invariant, extends the pool, and records the
string at the returned slot. -/
theorem IdentifierMap.get_identifier_idx_spec (m : IdentifierMap) (s : String) (hm : m.Inv) :
    (m.get_identifier_idx s).2.Inv
    ∧ (m.get_identifier_idx s).2.identifiers.get? (m.get_identifier_idx s).1 = some s
    ∧ (∀ j t, m.identifiers.get? j = some t →
        (m.get_identifier_idx s).2.identifiers.get? j = some t)
    ∧ lookupKV (m.get_identifier_idx s).2.identifier_map s = some (m.get_identifier_idx s).1 := by
  unfold IdentifierMap.get_identifier_idx
  cases hl : lookupKV m.identifier_map s with
  | some idx =>
    refine ⟨hm, ?_, ?_, ?_⟩
    · exact m.lookup_inv hm hl
    · intro j t hj; exact hj
    · exact hl
  | none =>
    refine ⟨?_, ?_, ?_, ?_⟩
    · intro p hp
      simp only [List.mem_cons] at hp
      rcases hp with hp | hp
      · subst hp
        exact List.get?_concat_length m.identifiers s
      · have := hm p hp
        have hlen := get?_lt_length this
        rw [List.get?_append hlen]
        exact this
    · exact List.get?_concat_length m.identifiers s
    · intro j t hj
      have hlen := get?_lt_length hj
      rw [List.get?_append hlen]
      exact hj
    · exact lookupKV_cons_self _ _ _

theorem IdentifierMap.get_identifier_idx_of_lookup {m : IdentifierMap} {s : String}
    {i : IdentifierIndex} (h : lookupKV m.identifier_map s = some i) :
    m.get_identifier_idx s = (i, m) := by
  unfold IdentifierMap.get_identifier_idx
  rw [h]

/-- C6: interning is idempotent and round-trips: interning `s` a second time
returns the same index as the first, the reverse lookup of the index returns
exactly `s` (interning itself is a total function, so it cannot fail), and
distinct strings interned in sequence receive distinct indices. -/
theorem interning_idempotent_roundtrip (m : IdentifierMap) (s t : String) (hm : m.Inv) :
    (((m.get_identifier_idx s).2).get_identifier_idx s).1 = (m.get_identifier_idx s).1
    ∧ ((m.get_identifier_idx s).2).get_identifier ((m.get_identifier_idx s).1) = s
    ∧ (s ≠ t →
        (((m.get_identifier_idx s).2).get_identifier_idx t).1 ≠ (m.get_identifier_idx s).1) := by
  obtain ⟨hinv1, hget1, _hmono1, hlk1⟩ := m.get_identifier_idx_spec s hm
  refine ⟨?_, ?_, ?_⟩
  · rw [IdentifierMap.get_identifier_idx_of_lookup hlk1]
  · unfold IdentifierMap.get_identifier
    rw [List.getD_eq_get?, hget1]
    rfl
  · intro hne heq
    obtain ⟨_hinv2, hget2, hmono2, _⟩ :=
      (m.get_identifier_idx s).2.get_identifier_idx_spec t hinv1
    have hs' := hmono2 _ _ hget1
    rw [heq] at hget2
    rw [hget2] at hs'
    exact hne (Option.some.inj hs').symm

/-- Witness for C6 at the empty intern table and `s := "a"`, `t := "b"`. -/
theorem interning_idempotent_roundtrip_witness :
    ((((IdentifierMap.new).get_identifier_idx "a").2).get_identifier_idx "a").1 =
      ((IdentifierMap.new).get_identifier_idx "a").1
    ∧ (((IdentifierMap.new).get_identifier_idx "a").2).get_identifier
        (((IdentifierMap.new).get_identifier_idx "a").1) = "a"
    ∧ ("a" ≠ "b" →
        ((((IdentifierMap.new).get_identifier_idx "a").2).get_identifier_idx "b").1 ≠
          ((IdentifierMap.new).get_identifier_idx "a").1) :=
  interning_idempotent_roundtrip IdentifierMap.new "a" "b" IdentifierMap.new_inv

/-! Spec-worded resolution algorithms (for refinement statements). -/

theorem except_ok_bind {α β : Type} (a : α) (f : α → Except BuildError β) :
    (Except.ok a >>= f) = f a := rfl

theorem except_error_bind {α β : Type} (e : BuildError) (f : α → Except BuildError β) :
    ((Except.error e : Except BuildError α) >>= f) = .error e := rfl

/-- Follows the spec's words: "Look up that resulting address in the same
package's linkage table.  If present, replace it with the table's *upgraded*
address." -/
def spec_linkage_rewrite (linkage : List (Address × UpgradeInfo)) (addr : Address) : Address :=
  match lookupKV linkage addr with
  | none => addr
  | some upgrade_info => upgrade_info.upgraded_id

/-- Follows the spec's words (§4.2 steps 1–3): override the raw declaring
address with the type-origin entry for `(module_name, struct_name)` when
present, then apply the linkage-table upgrade, then form the canonical key. -/
def spec_struct_key (rawAddr : Address) (module_name struct_name : String)
    (type_origin : List ((String × String) × Address))
    (linkage : List (Address × UpgradeInfo)) : String :=
  let origin_addr :=
    match lookupKV type_origin (module_name, struct_name) with
    | none => rawAddr
    | some a => a
  spec_linkage_rewrite linkage origin_addr ++ "::" ++ module_name ++ "::" ++ struct_name

/-- Follows the spec's words (§4.2 steps 1–5): the canonical key computed by
`spec_struct_key`, looked up in the global struct map. -/
def spec_struct_resolution (rawAddr : Address) (module_name struct_name : String)
    (type_origin : List ((String × String) × Address))
    (linkage : List (Address × UpgradeInfo))
    (struct_map : List (String × StructIndex)) : Except BuildError StructIndex :=
  get_value (spec_struct_key rawAddr module_name struct_name type_origin linkage) struct_map

/-- The key actually used for definition-based struct operands: type-origin
override only, no linkage step. -/
def spec_origin_only_key (rawAddr : Address) (module_name struct_name : String)
    (type_origin : List ((String × String) × Address)) : String :=
  let origin_addr :=
    match lookupKV type_origin (module_name, struct_name) with
    | none => rawAddr
    | some a => a
  origin_addr ++ "::" ++ module_name ++ "::" ++ struct_name

theorem get_struct_idx_eq_spec (tb : TypeBuilder) (module : Module) (cm : CompiledModule)
    (mp : MovePackage) (h : Nat)
    (hm : module.module = some cm)
    (hp : (tb.packages.getD module.package default).package = some mp) :
    tb.get_struct_idx module h =
      spec_struct_resolution (get_package_from_struct_handle cm h)
        (module_struct_name_from_handle cm h).1 (module_struct_name_from_handle cm h).2
        (tb.packages.getD module.package default).type_origin mp.linkage_table tb.struct_map := by
  unfold TypeBuilder.get_struct_idx
  rw [hm]
  simp only [unwrapOpt, except_ok_bind, hp]
  unfold spec_struct_resolution spec_struct_key spec_linkage_rewrite
  rfl

theorem get_struct_key_from_def_eq_spec (d : Nat) (cm : CompiledModule) (package : Package) :
    get_struct_key_from_def d cm package =
      spec_origin_only_key (get_package_from_struct_def cm d)
        (module_struct_name_from_def cm d).1 (module_struct_name_from_def cm d).2
        package.type_origin := rfl

/-- C1 (amended): the origin-then-linkage-then-lookup algorithm governs struct
references read from struct *handles* (field types, signatures, constant
types); struct references read from struct *definitions* (Pack/Unpack and
field borrows) apply only the type-origin override and never consult the
linkage table (the key is invariant under replacing the wrapped package and
its linkage table). -/
theorem struct_resolution_amended (tb : TypeBuilder) (module : Module) (cm : CompiledModule)
    (mp : MovePackage) (h d : Nat)
    (hm : module.module = some cm)
    (hp : (tb.packages.getD module.package default).package = some mp) :
    tb.get_struct_idx module h =
      spec_struct_resolution (get_package_from_struct_handle cm h)
        (module_struct_name_from_handle cm h).1 (module_struct_name_from_handle cm h).2
        (tb.packages.getD module.package default).type_origin mp.linkage_table tb.struct_map
    ∧ get_struct_key_from_def d cm (tb.packages.getD module.package default) =
      spec_origin_only_key (get_package_from_struct_def cm d)
        (module_struct_name_from_def cm d).1 (module_struct_name_from_def cm d).2
        (tb.packages.getD module.package default).type_origin
    ∧ (∀ mp2, get_struct_key_from_def d cm
        { tb.packages.getD module.package default with package := mp2 } =
        get_struct_key_from_def d cm (tb.packages.getD module.package default)) :=
  ⟨get_struct_idx_eq_spec tb module cm mp h hm hp,
   get_struct_key_from_def_eq_spec d cm _,
   fun _ => rfl⟩

/-- C1 counterexample: in `c1Input` the v2 package's linkage table maps
`0xA -> 0xB` and its `Pack`/`Unpack` operand's origin-rewritten address is
`0xA`; the claim requires resolution to the struct loaded from the package at
`0xB` (global index 1), but the build resolves the operand to index 0, the
struct of the package at `0xA`. -/
theorem struct_resolution_counterexample :
    build_environment c1Input = .ok c1Env
    ∧ (c1Env.functions.getD 0 default).code =
        some { locals := [], code := [.Pack 0, .Unpack 0, .Ret] }
    ∧ (c1Env.structs.getD 0 default).package = 0
    ∧ (c1Env.packages.getD 0 default).id = "0xA"
    ∧ (c1Env.structs.getD 1 default).package = 1
    ∧ (c1Env.packages.getD 1 default).id = "0xB"
    ∧ lookupKV (c1Input.getD 1 default).linkage_table "0xA" = some ⟨"0xB"⟩
    ∧ spec_struct_resolution "0xA" "m" "S" (c1Input.getD 1 default).type_origin_map
        (c1Input.getD 1 default).linkage_table c1Env.struct_map = .ok 1 :=
  ⟨rfl, rfl, rfl, rfl, rfl, rfl, rfl, rfl⟩

/-- Witness for the amended C1, at the v2 module of `c1Input`. -/
theorem struct_resolution_amended_witness :
    c1Module.module = some cmCur
    ∧ (c1TB.packages.getD c1Module.package default).package = some (c1Input.getD 1 default)
    ∧ (c1TB.get_struct_idx c1Module 0 =
        spec_struct_resolution (get_package_from_struct_handle cmCur 0)
          (module_struct_name_from_handle cmCur 0).1 (module_struct_name_from_handle cmCur 0).2
          (c1TB.packages.getD c1Module.package default).type_origin
          (c1Input.getD 1 default).linkage_table c1TB.struct_map
      ∧ get_struct_key_from_def 0 cmCur (c1TB.packages.getD c1Module.package default) =
        spec_origin_only_key (get_package_from_struct_def cmCur 0)
          (module_struct_name_from_def cmCur 0).1 (module_struct_name_from_def cmCur 0).2
          (c1TB.packages.getD c1Module.package default).type_origin
      ∧ (∀ mp2, get_struct_key_from_def 0 cmCur
          { c1TB.packages.getD c1Module.package default with package := mp2 } =
          get_struct_key_from_def 0 cmCur (c1TB.packages.getD c1Module.package default))) :=
  ⟨rfl, rfl, struct_resolution_amended c1TB c1Module cmCur (c1Input.getD 1 default) 0 0 rfl rfl⟩

/-- C2: the build returns a single result (a success excludes any error); a
struct reference whose canonical key is absent from the struct map resolves
to `MissingKey` carrying exactly that key (the spec's `UnresolvedSymbol`);
and the dangling-reference input `c2Input` makes the whole build return that
error, with no environment. -/
theorem build_single_result_or_missing_key :
    (∀ input env e, build_environment input = .ok env → build_environment input ≠ .error e)
    ∧ (∀ tb module cm mp h,
        module.module = some cm →
        (tb.packages.getD module.package default).package = some mp →
        ∀ key, key = spec_struct_key (get_package_from_struct_handle cm h)
            (module_struct_name_from_handle cm h).1 (module_struct_name_from_handle cm h).2
            (tb.packages.getD module.package default).type_origin mp.linkage_table →
        lookupKV tb.struct_map key = none →
        TypeBuilder.get_struct_idx tb module h = .error (.missingKey key))
    ∧ build_environment c2Input = .error (.missingKey "0xB::n::T") := by
  refine ⟨?_, ?_, rfl⟩
  · intro input env e hok herr
    rw [hok] at herr
    exact Except.noConfusion herr
  · intro tb module cm mp h hm hp key hkey hnone
    rw [get_struct_idx_eq_spec tb module cm mp h hm hp]
    unfold spec_struct_resolution get_value
    rw [← hkey, hnone]

/-- Witness for C2's missing-key conjunct, at the dangling reference of
`c2Input`. -/
theorem build_single_result_witness :
    c2Module.module = some cmDangling
    ∧ (c2TB.packages.getD c2Module.package default).package = some (c2Input.getD 0 default)
    ∧ lookupKV c2TB.struct_map "0xB::n::T" = none
    ∧ c2TB.get_struct_idx c2Module 1 = .error (.missingKey "0xB::n::T") :=
  ⟨rfl, rfl, rfl,
    build_single_result_or_missing_key.2.1 c2TB c2Module cmDangling (c2Input.getD 0 default) 1
      rfl rfl "0xB::n::T" rfl rfl⟩

/-- C3: function-symbol resolution never consults the type-origin table (the
key is invariant under any type-origin replacement); an intra-package callee
(handle address equal to the module's own self address) is pinned to the
calling package's own id even when the linkage table is non-empty; any other
callee address is rewritten through the linkage table only; and the `Call`
arm of instruction resolution resolves its operand through exactly this key. -/
theorem function_resolution_linkage_only (cm : CompiledModule) (package : Package)
    (mp : MovePackage) (idx : Nat) (hp : package.package = some mp) :
    (∀ torig, get_function_key_from_handle idx cm { package with type_origin := torig } =
        get_function_key_from_handle idx cm package)
    ∧ (get_package_from_function_handle cm idx = cm.self_id.1 →
        get_function_key_from_handle idx cm package =
          package.id ++ "::" ++ (module_function_name_from_handle cm idx).1 ++ "::" ++
            (module_function_name_from_handle cm idx).2)
    ∧ (get_package_from_function_handle cm idx ≠ cm.self_id.1 →
        get_function_key_from_handle idx cm package =
          spec_linkage_rewrite mp.linkage_table (get_package_from_function_handle cm idx) ++
            "::" ++ (module_function_name_from_handle cm idx).1 ++ "::" ++
            (module_function_name_from_handle cm idx).2)
    ∧ (∀ tb function_map module,
        load_bytecode tb function_map module cm (.Call idx) =
          (get_value (get_function_key_from_handle idx cm
              (tb.packages.getD module.package default)) function_map).map Bytecode.Call) := by
  refine ⟨fun _ => rfl, ?_, ?_, ?_⟩
  · intro h
    simp [get_function_key_from_handle, h]
  · intro h
    simp [get_function_key_from_handle, spec_linkage_rewrite, h, hp]
  · intro tb function_map module
    cases hv : get_value (get_function_key_from_handle idx cm
        (tb.packages.getD module.package default)) function_map with
    | ok v =>
      simp only [load_bytecode]
      rw [hv]
      rfl
    | error e =>
      simp only [load_bytecode]
      rw [hv]
      rfl

/-- Witness for C3 at the cross-module call handle of `cmA`. -/
theorem function_resolution_witness :
    c3Pkg.package = some c3Mp
    ∧ ((∀ torig, get_function_key_from_handle 1 cmA { c3Pkg with type_origin := torig } =
          get_function_key_from_handle 1 cmA c3Pkg)
      ∧ (get_package_from_function_handle cmA 1 = cmA.self_id.1 →
          get_function_key_from_handle 1 cmA c3Pkg =
            c3Pkg.id ++ "::" ++ (module_function_name_from_handle cmA 1).1 ++ "::" ++
              (module_function_name_from_handle cmA 1).2)
      ∧ (get_package_from_function_handle cmA 1 ≠ cmA.self_id.1 →
          get_function_key_from_handle 1 cmA c3Pkg =
            spec_linkage_rewrite c3Mp.linkage_table (get_package_from_function_handle cmA 1) ++
              "::" ++ (module_function_name_from_handle cmA 1).1 ++ "::" ++
              (module_function_name_from_handle cmA 1).2)
      ∧ (∀ tb function_map module,
          load_bytecode tb function_map module cmA (.Call 1) =
            (get_value (get_function_key_from_handle 1 cmA
                (tb.packages.getD module.package default)) function_map).map Bytecode.Call)) :=
  ⟨rfl, function_resolution_linkage_only cmA c3Pkg c3Mp 1 rfl⟩

/-! C8 and C9. -/

theorem foldl_snoc_map {α β : Type} (g : α → β) (l : List α) (a : List β) :
    l.foldl (fun acc x => acc ++ [g x]) a = a ++ l.map g := by
  induction l generalizing a with
  | nil => simp
  | cons x xs ih => simp [ih]

theorem foldl_visited_join {β : Type} (g : Function → List β) (l : List Function) (a : List β) :
    l.foldl (fun acc f => acc ++ g f) a = a ++ (l.map g).join := by
  induction l generalizing a with
  | nil => simp
  | cons x xs ih => simp [ih]

/-- C9: each walker invokes its visitor once per entity, in global pool order;
the collector instances below recover exactly the pool sequences (and, for
`walk_bytecodes`, each code-bearing function's instruction stream in order),
so two walks of the same kind over the same environment visit the identical
sequence of entities. -/
theorem walkers_visit_pool_order (env : GlobalEnv) :
    walk_packages env (fun l _ p => l ++ [p]) [] = env.packages
    ∧ walk_modules env (fun l _ m => l ++ [m]) [] = env.modules
    ∧ walk_structs env (fun l _ s => l ++ [s]) [] = env.structs
    ∧ walk_functions env (fun l _ f => l ++ [f]) [] = env.functions
    ∧ walk_bytecodes env (fun l _ f b => l ++ [(f, b)]) [] =
        (env.functions.map (fun f =>
          match f.code with
          | none => []
          | some c => c.code.map (fun b => (f, b)))).join := by
  refine ⟨?_, ?_, ?_, ?_, ?_⟩
  · simpa [walk_packages] using foldl_snoc_map (fun p : Package => p) env.packages []
  · simpa [walk_modules] using foldl_snoc_map (fun m : Module => m) env.modules []
  · simpa [walk_structs] using foldl_snoc_map (fun s : Struct => s) env.structs []
  · simpa [walk_functions] using foldl_snoc_map (fun f : Function => f) env.functions []
  · unfold walk_bytecodes walk_functions
    have hstep : ∀ (s : List (Function × Bytecode)) (f : Function),
        (match f.code with
          | some code => code.code.foldl (fun s b => s ++ [(f, b)]) s
          | none => s) =
        s ++ (match f.code with
          | none => ([] : List (Function × Bytecode))
          | some c => c.code.map (fun b => (f, b))) := by
      intro s f
      cases f.code with
      | none => simp
      | some c => simpa using foldl_snoc_map (fun b => (f, b)) c.code s
    calc env.functions.foldl
          (fun s func =>
            match func.code with
            | some code => code.code.foldl (fun s bytecode => s ++ [(func, bytecode)]) s
            | none => s) []
        = env.functions.foldl
            (fun s func => s ++ (match func.code with
              | none => []
              | some c => c.code.map (fun b => (func, b)))) [] := by
          congr 1
          funext s func
          exact hstep s func
      _ = [] ++ (env.functions.map (fun f =>
            match f.code with
            | none => []
            | some c => c.code.map (fun b => (f, b)))).join :=
          foldl_visited_join _ env.functions []
      _ = _ := by simp

/-- C8 counterexample: in the environment built from `exInput`, function 0
(module 0) calls function 1, which lives in module 1; yet module 0's
dependency list is empty, so the callee's module does not appear in it.  The
dependency list is never populated during instruction resolution. -/
theorem dependencies_counterexample :
    build_environment exInput = .ok exEnv
    ∧ (exEnv.functions.getD 0 default).code =
        some { locals := [], code := [.LdConst 0, .Call 1, .Branch 4, .Nop, .Ret] }
    ∧ (exEnv.functions.getD 0 default).module = 0
    ∧ (exEnv.functions.getD 1 default).module = 1
    ∧ (exEnv.modules.getD 0 default).dependencies = []
    ∧ ¬ (1 ∈ (exEnv.modules.getD 0 default).dependencies) := by
  refine ⟨rfl, rfl, rfl, rfl, rfl, ?_⟩
  rw [show (exEnv.modules.getD 0 default).dependencies = [] from rfl]
  exact List.not_mem_nil 1

/-! Index-validity checks (for C5) and control-flow projections (for C4). -/

mutual

/-- Every struct index inside a resolved type is below `n`. -/
def structsLtB (n : Nat) : MType → Bool
  | .Vector t => structsLtB n t
  | .Reference t => structsLtB n t
  | .MutableReference t => structsLtB n t
  | .Struct i => decide (i < n)
  | .StructInstantiation i ts => decide (i < n) && listStructsLtB n ts
  | _ => true

/-- `structsLtB` over a type list. -/
def listStructsLtB (n : Nat) : List MType → Bool
  | [] => true
  | t :: ts => structsLtB n t && listStructsLtB n ts

end

/-- Every global index inside a resolved instruction is within bounds
(`nf` functions, `ns` structs). -/
def bytecodeOkB (nf ns : Nat) : Bytecode → Bool
  | .Call i => decide (i < nf)
  | .CallGeneric i ts => decide (i < nf) && listStructsLtB ns ts
  | .Pack i => decide (i < ns)
  | .PackGeneric i ts => decide (i < ns) && listStructsLtB ns ts
  | .Unpack i => decide (i < ns)
  | .UnpackGeneric i ts => decide (i < ns) && listStructsLtB ns ts
  | .MutBorrowField fr => decide (fr.struct_idx < ns)
  | .MutBorrowFieldGeneric fr ts => decide (fr.struct_idx < ns) && listStructsLtB ns ts
  | .ImmBorrowField fr => decide (fr.struct_idx < ns)
  | .ImmBorrowFieldGeneric fr ts => decide (fr.struct_idx < ns) && listStructsLtB ns ts
  | .VecPack t _ => structsLtB ns t
  | .VecLen t => structsLtB ns t
  | .VecImmBorrow t => structsLtB ns t
  | .VecMutBorrow t => structsLtB ns t
  | .VecPushBack t => structsLtB ns t
  | .VecPopBack t => structsLtB ns t
  | .VecUnpack t _ => structsLtB ns t
  | .VecSwap t => structsLtB ns t
  | _ => true

/-- Every global index contained anywhere in the environment lies strictly
within the bounds of its target pool. -/
def checkEnv (env : GlobalEnv) : Bool :=
  let np := env.packages.length
  let nm := env.modules.length
  let ns := env.structs.length
  let nf := env.functions.length
  let ni := env.identifiers.length
  env.packages.all (fun p => p.modules.all (fun i => decide (i < nm)))
  && env.modules.all (fun m =>
      decide (m.package < np) && decide (m.name < ni)
      && m.structs.all (fun i => decide (i < ns))
      && m.functions.all (fun i => decide (i < nf))
      && m.dependencies.all (fun i => decide (i < nm))
      && m.constants.all (fun c => structsLtB ns c.type_))
  && env.structs.all (fun s =>
      decide (s.package < np) && decide (s.module < nm) && decide (s.name < ni)
      && s.fields.all (fun f => decide (f.name < ni) && structsLtB ns f.type_))
  && env.functions.all (fun f =>
      decide (f.package < np) && decide (f.module < nm) && decide (f.name < ni)
      && listStructsLtB ns f.parameters
      && listStructsLtB ns f.returns
      && (match f.code with
          | none => true
          | some c => listStructsLtB ns c.locals && c.code.all (bytecodeOkB nf ns)))
  && env.package_map.all (fun p => decide (p.2 < np))
  && env.module_map.all (fun p => decide (p.2 < nm))
  && env.function_map.all (fun p => decide (p.2 < nf))
  && env.struct_map.all (fun p => decide (p.2 < ns))
  && env.identifier_map.all (fun p => decide (p.2 < ni))

/-- Control-flow projection of a raw bytecode: branch kind and its
instruction-stream offset, `none` for non-branch operations. -/
def raw_cf : MoveBytecode → Option (Nat × Nat)
  | .BrTrue n => some (0, n)
  | .BrFalse n => some (1, n)
  | .Branch n => some (2, n)
  | _ => none

/-- Control-flow projection of a resolved bytecode. -/
def res_cf : Bytecode → Option (Nat × Nat)
  | .BrTrue n => some (0, n)
  | .BrFalse n => some (1, n)
  | .Branch n => some (2, n)
  | _ => none

/-! Lemmas threading bounds through resolution. -/

/-- All values of a map are below `n`. -/
def entriesLt {κ : Type} (m : List (κ × Nat)) (n : Nat) : Prop := ∀ p ∈ m, p.2 < n

theorem entriesLt_collect {κ : Type} {m : List (κ × Nat)} {n : Nat} (h : entriesLt m n) :
    entriesLt (collectMap m) n := by
  intro p hp
  exact h p (List.mem_reverse.mp hp)

theorem lookupKV_lt {κ : Type} [DecidableEq κ] {m : List (κ × Nat)} {n : Nat}
    (h : entriesLt m n) {k : κ} {v : Nat} (hl : lookupKV m k = some v) : v < n :=
  h _ (lookupKV_mem hl)

theorem get_value_ok_lookup {α : Type} {k : String} {m : List (String × α)} {v : α}
    (h : get_value k m = .ok v) : lookupKV m k = some v := by
  unfold get_value at h
  cases hl : lookupKV m k with
  | some w => rw [hl] at h; cases h; rfl
  | none => rw [hl] at h; exact Except.noConfusion h

theorem get_value_ok_lt {k : String} {m : List (String × Nat)} {n v : Nat}
    (hm : entriesLt m n) (h : get_value k m = .ok v) : v < n :=
  lookupKV_lt hm (get_value_ok_lookup h)

theorem except_bind_ok_inv {α β : Type} {e : Except BuildError α} {f : α → Except BuildError β}
    {b : β} (h : (e >>= f) = .ok b) : ∃ a, e = .ok a ∧ f a = .ok b := by
  cases e with
  | ok a => exact ⟨a, rfl, h⟩
  | error err => exact Except.noConfusion h

theorem get_struct_idx_ok_lt {tb : TypeBuilder} {module : Module} {h : Nat} {i : StructIndex}
    {ns : Nat} (hsm : entriesLt tb.struct_map ns) (hok : tb.get_struct_idx module h = .ok i) :
    i < ns := by
  unfold TypeBuilder.get_struct_idx at hok
  cases hm : module.module with
  | none => rw [hm] at hok; exact Except.noConfusion hok
  | some cm =>
    rw [hm] at hok
    simp only [unwrapOpt, except_ok_bind] at hok
    cases hp : (tb.packages.getD module.package default).package with
    | none => rw [hp] at hok; exact Except.noConfusion hok
    | some mp =>
      rw [hp] at hok
      simp only [unwrapOpt, except_ok_bind] at hok
      exact get_value_ok_lt hsm hok

mutual

theorem make_type_ok_bound (tb : TypeBuilder) (module : Module) (ns : Nat)
    (hsm : entriesLt tb.struct_map ns) :
    ∀ tok t, tb.make_type module tok = .ok t → structsLtB ns t = true
  | .Bool, t, h => by cases h; rfl
  | .U8, t, h => by cases h; rfl
  | .U16, t, h => by cases h; rfl
  | .U32, t, h => by cases h; rfl
  | .U64, t, h => by cases h; rfl
  | .U128, t, h => by cases h; rfl
  | .U256, t, h => by cases h; rfl
  | .Address, t, h => by cases h; rfl
  | .Signer, t, h => by cases h
  | .TypeParameter i, t, h => by cases h; rfl
  | .Vector inner, t, h => by
    simp only [TypeBuilder.make_type] at h
    obtain ⟨a, ha, hb⟩ := except_bind_ok_inv h
    cases hb
    exact make_type_ok_bound tb module ns hsm inner a ha
  | .Reference inner, t, h => by
    simp only [TypeBuilder.make_type] at h
    obtain ⟨a, ha, hb⟩ := except_bind_ok_inv h
    cases hb
    exact make_type_ok_bound tb module ns hsm inner a ha
  | .MutableReference inner, t, h => by
    simp only [TypeBuilder.make_type] at h
    obtain ⟨a, ha, hb⟩ := except_bind_ok_inv h
    cases hb
    exact make_type_ok_bound tb module ns hsm inner a ha
  | .Struct hi, t, h => by
    simp only [TypeBuilder.make_type] at h
    obtain ⟨a, ha, hb⟩ := except_bind_ok_inv h
    cases hb
    simpa [structsLtB] using get_struct_idx_ok_lt hsm ha
  | .StructInstantiation hi args, t, h => by
    simp only [TypeBuilder.make_type] at h
    obtain ⟨a, ha, hb⟩ := except_bind_ok_inv h
    obtain ⟨ts, hts, hb2⟩ := except_bind_ok_inv hb
    cases hb2
    have h1 := get_struct_idx_ok_lt hsm ha
    have h2 := make_type_list_ok_bound tb module ns hsm args ts hts
    simp [structsLtB, h1, h2]

theorem make_type_list_ok_bound (tb : TypeBuilder) (module : Module) (ns : Nat)
    (hsm : entriesLt tb.struct_map ns) :
    ∀ toks ts, tb.make_type_list module toks = .ok ts → listStructsLtB ns ts = true
  | [], ts, h => by cases h; rfl
  | tok :: toks, ts, h => by
    simp only [TypeBuilder.make_type_list] at h
    obtain ⟨a, ha, hb⟩ := except_bind_ok_inv h
    obtain ⟨as, has, hb2⟩ := except_bind_ok_inv hb
    cases hb2
    have h1 := make_type_ok_bound tb module ns hsm tok a ha
    have h2 := make_type_list_ok_bound tb module ns hsm toks as has
    simp [listStructsLtB, h1, h2]

end

/-- A successfully resolved instruction has in-bounds operands and preserves
the raw instruction's control-flow kind and offset verbatim. -/
theorem load_bytecode_ok_facts {tb : TypeBuilder} {fm : List (String × FunctionIndex)}
    {module : Module} {cm : CompiledModule} {bc : MoveBytecode} {b : Bytecode} {nf ns : Nat}
    (hsm : entriesLt tb.struct_map ns) (hfm : entriesLt fm nf)
    (h : load_bytecode tb fm module cm bc = .ok b) :
    bytecodeOkB nf ns b = true ∧ raw_cf bc = res_cf b := by
  cases bc <;> simp only [load_bytecode] at h
  all_goals try { cases h; exact ⟨rfl, rfl⟩ }
  all_goals try { exact Except.noConfusion h }
  case Call idx =>
    obtain ⟨a, ha, hb⟩ := except_bind_ok_inv h
    cases hb
    exact ⟨by simpa [bytecodeOkB] using get_value_ok_lt hfm ha, rfl⟩
  case CallGeneric idx =>
    obtain ⟨a, ha, hb⟩ := except_bind_ok_inv h
    obtain ⟨ts, hts, hb2⟩ := except_bind_ok_inv hb
    cases hb2
    have h1 := get_value_ok_lt hfm ha
    have h2 := make_type_list_ok_bound tb module ns hsm _ ts hts
    exact ⟨by simp [bytecodeOkB, h1, h2], rfl⟩
  case Pack idx =>
    obtain ⟨a, ha, hb⟩ := except_bind_ok_inv h
    cases hb
    exact ⟨by simpa [bytecodeOkB] using get_value_ok_lt hsm ha, rfl⟩
  case PackGeneric idx =>
    obtain ⟨a, ha, hb⟩ := except_bind_ok_inv h
    obtain ⟨ts, hts, hb2⟩ := except_bind_ok_inv hb
    cases hb2
    have h1 := get_value_ok_lt hsm ha
    have h2 := make_type_list_ok_bound tb module ns hsm _ ts hts
    exact ⟨by simp [bytecodeOkB, h1, h2], rfl⟩
  case Unpack idx =>
    obtain ⟨a, ha, hb⟩ := except_bind_ok_inv h
    cases hb
    exact ⟨by simpa [bytecodeOkB] using get_value_ok_lt hsm ha, rfl⟩
  case UnpackGeneric idx =>
    obtain ⟨a, ha, hb⟩ := except_bind_ok_inv h
    obtain ⟨ts, hts, hb2⟩ := except_bind_ok_inv hb
    cases hb2
    have h1 := get_value_ok_lt hsm ha
    have h2 := make_type_list_ok_bound tb module ns hsm _ ts hts
    exact ⟨by simp [bytecodeOkB, h1, h2], rfl⟩
  case MutBorrowField idx =>
    obtain ⟨a, ha, hb⟩ := except_bind_ok_inv h
    cases hb
    exact ⟨by simpa [bytecodeOkB] using get_value_ok_lt hsm ha, rfl⟩
  case MutBorrowFieldGeneric idx =>
    obtain ⟨a, ha, hb⟩ := except_bind_ok_inv h
    obtain ⟨ts, hts, hb2⟩ := except_bind_ok_inv hb
    cases hb2
    have h1 := get_value_ok_lt hsm ha
    have h2 := make_type_list_ok_bound tb module ns hsm _ ts hts
    exact ⟨by simp [bytecodeOkB, h1, h2], rfl⟩
  case ImmBorrowField idx =>
    obtain ⟨a, ha, hb⟩ := except_bind_ok_inv h
    cases hb
    exact ⟨by simpa [bytecodeOkB] using get_value_ok_lt hsm ha, rfl⟩
  case ImmBorrowFieldGeneric idx =>
    obtain ⟨a, ha, hb⟩ := except_bind_ok_inv h
    obtain ⟨ts, hts, hb2⟩ := except_bind_ok_inv hb
    cases hb2
    have h1 := get_value_ok_lt hsm ha
    have h2 := make_type_list_ok_bound tb module ns hsm _ ts hts
    exact ⟨by simp [bytecodeOkB, h1, h2], rfl⟩
  case VecPack sig count =>
    obtain ⟨t, ht, hb⟩ := except_bind_ok_inv h
    cases hb
    exact ⟨by simpa [bytecodeOkB] using make_type_ok_bound tb module ns hsm _ t ht, rfl⟩
  case VecLen sig =>
    obtain ⟨t, ht, hb⟩ := except_bind_ok_inv h
    cases hb
    exact ⟨by simpa [bytecodeOkB] using make_type_ok_bound tb module ns hsm _ t ht, rfl⟩
  case VecImmBorrow sig =>
    obtain ⟨t, ht, hb⟩ := except_bind_ok_inv h
    cases hb
    exact ⟨by simpa [bytecodeOkB] using make_type_ok_bound tb module ns hsm _ t ht, rfl⟩
  case VecMutBorrow sig =>
    obtain ⟨t, ht, hb⟩ := except_bind_ok_inv h
    cases hb
    exact ⟨by simpa [bytecodeOkB] using make_type_ok_bound tb module ns hsm _ t ht, rfl⟩
  case VecPushBack sig =>
    obtain ⟨t, ht, hb⟩ := except_bind_ok_inv h
    cases hb
    exact ⟨by simpa [bytecodeOkB] using make_type_ok_bound tb module ns hsm _ t ht, rfl⟩
  case VecPopBack sig =>
    obtain ⟨t, ht, hb⟩ := except_bind_ok_inv h
    cases hb
    exact ⟨by simpa [bytecodeOkB] using make_type_ok_bound tb module ns hsm _ t ht, rfl⟩
  case VecUnpack sig count =>
    obtain ⟨t, ht, hb⟩ := except_bind_ok_inv h
    cases hb
    exact ⟨by simpa [bytecodeOkB] using make_type_ok_bound tb module ns hsm _ t ht, rfl⟩
  case VecSwap sig =>
    obtain ⟨t, ht, hb⟩ := except_bind_ok_inv h
    cases hb
    exact ⟨by simpa [bytecodeOkB] using make_type_ok_bound tb module ns hsm _ t ht, rfl⟩

/-- Instruction streams resolve one-to-one, in order. -/
theorem load_bytecodes_ok_facts {tb : TypeBuilder} {fm : List (String × FunctionIndex)}
    {module : Module} {cm : CompiledModule} {bcs : List MoveBytecode} {bs : List Bytecode}
    (h : load_bytecodes tb fm module cm bcs = .ok bs) :
    bs.length = bcs.length
    ∧ ∀ j bc, bcs.get? j = some bc →
        ∃ b, bs.get? j = some b ∧ load_bytecode tb fm module cm bc = .ok b := by
  induction bcs generalizing bs with
  | nil =>
    cases h
    exact ⟨rfl, by intro j bc hj; simp at hj⟩
  | cons bc rest ih =>
    simp only [load_bytecodes] at h
    obtain ⟨b, hb, h2⟩ := except_bind_ok_inv h
    obtain ⟨bs', hbs, h3⟩ := except_bind_ok_inv h2
    cases h3
    obtain ⟨hlen, hp⟩ := ih hbs
    refine ⟨by simp [hlen], ?_⟩
    intro j x hj
    cases j with
    | zero =>
      simp only [List.get?_cons_zero] at hj
      cases hj
      exact ⟨b, rfl, hb⟩
    | succ j =>
      simp only [List.get?_cons_succ] at hj ⊢
      exact hp j x hj

/-! Intern-table monotonicity and per-stage characterization lemmas. -/

/-- The identifier pool only grows: every filled slot stays filled with the
same string. -/
def IdentifierMap.Mono (im im' : IdentifierMap) : Prop :=
  ∀ j t, im.identifiers.get? j = some t → im'.identifiers.get? j = some t

theorem IdentifierMap.Mono.refl (im : IdentifierMap) : im.Mono im := fun _ _ h => h

theorem IdentifierMap.Mono.trans {im im2 im3 : IdentifierMap}
    (h1 : im.Mono im2) (h2 : im2.Mono im3) : im.Mono im3 :=
  fun j t h => h2 j t (h1 j t h)

theorem IdentifierMap.get_identifier_idx_mono (m : IdentifierMap) (s : String) :
    m.Mono (m.get_identifier_idx s).2 := by
  unfold IdentifierMap.get_identifier_idx
  cases hl : lookupKV m.identifier_map s with
  | some idx => exact fun _ _ h => h
  | none =>
    intro j t h
    have hlen := get?_lt_length h
    show (m.identifiers ++ [s]).get? j = some t
    rw [List.get?_append hlen]
    exact h

theorem IdentifierMap.get_identifier_of_get? {im : IdentifierMap} {j : Nat} {t : String}
    (h : im.identifiers.get? j = some t) : im.get_identifier j = t := by
  unfold IdentifierMap.get_identifier
  rw [List.getD_eq_get?, h]
  rfl

/-- `load_packages_rec`: length, and full pointwise characterization. -/
theorem load_packages_rec_facts (l : List MovePackage) (k : Nat) :
    (load_packages_rec k l).length = l.length
    ∧ ∀ i p, (load_packages_rec k l).get? i = some p →
        ∃ mp, l.get? i = some mp ∧ p.self_idx = k + i ∧ p.id = mp.id
          ∧ p.package = some mp ∧ p.version = some mp.version
          ∧ p.type_origin = mp.type_origin_map ∧ p.modules = [] := by
  induction l generalizing k with
  | nil =>
    refine ⟨rfl, ?_⟩
    intro i p hp
    simp [load_packages_rec] at hp
  | cons mp rest ih =>
    refine ⟨by simp [load_packages_rec, (ih (k + 1)).1], ?_⟩
    intro i p hp
    cases i with
    | zero =>
      simp only [load_packages_rec, List.get?_cons_zero] at hp
      cases hp
      exact ⟨mp, rfl, rfl, rfl, rfl, rfl, rfl, rfl⟩
    | succ i =>
      simp only [load_packages_rec, List.get?_cons_succ] at hp ⊢
      obtain ⟨mp', h1, h2, h3⟩ := (ih (k + 1)).2 i p hp
      exact ⟨mp', h1, by rw [h2, Nat.add_assoc, Nat.add_comm 1 i], h3⟩

/-- `package_map_entries` values are the positions of the package pool. -/
theorem package_map_entries_facts (ps : List Package) (k : Nat) :
    ∀ e ∈ package_map_entries k ps, k ≤ e.2 ∧ e.2 < k + ps.length := by
  induction ps generalizing k with
  | nil => intro e he; simp [package_map_entries] at he
  | cons p rest ih =>
    intro e he
    simp only [package_map_entries, List.mem_cons] at he
    rcases he with he | he
    · subst he
      refine ⟨Nat.le_refl k, ?_⟩
      show k < k + (p :: rest).length
      simp only [List.length_cons]
      omega
    · obtain ⟨h1, h2⟩ := ih (k + 1) e he
      refine ⟨Nat.le_of_succ_le h1, ?_⟩
      simp only [List.length_cons]
      exact Nat.lt_of_lt_of_le h2 (Nat.le_of_eq (by rw [Nat.add_assoc, Nat.add_comm 1 rest.length]))

/-- Phase 1 of module loading, inner loop: name integrity of every processed
entry, plus the shape of every produced module. -/
theorem load_modules_entries_facts {im : IdentifierMap} {pkg_idx : Nat} {pid : Address}
    {l : List (String × CompiledModule)} {ms : List Module} {im' : IdentifierMap}
    (h : load_modules_entries im pkg_idx pid l = .ok (ms, im')) :
    im.Mono im'
    ∧ (im.Inv → im'.Inv)
    ∧ (∀ e ∈ l, e.1 = e.2.self_id.2)
    ∧ ∀ m ∈ ms, m.package = pkg_idx
        ∧ (∃ cm, m.module = some cm ∧ m.module_id = cm.self_id)
        ∧ m.dependencies = [] ∧ m.structs = [] ∧ m.functions = [] ∧ m.constants = []
        ∧ (im.Inv → im'.identifiers.get? m.name = some m.module_id.2) := by
  induction l generalizing im ms im' with
  | nil =>
    cases h
    exact ⟨IdentifierMap.Mono.refl im, fun hi => hi, by intro e he; simp at he,
      by intro m hm; simp at hm⟩
  | cons e rest ih =>
    obtain ⟨name, cm⟩ := e
    simp only [load_modules_entries] at h
    split at h
    case isTrue hname =>
      obtain ⟨p, hrec, hcons⟩ := except_bind_ok_inv h
      obtain ⟨ms1, im1⟩ := p
      cases hcons
      obtain ⟨hmono, hinv, hentries, hms⟩ := ih hrec
      have hmono1 := im.get_identifier_idx_mono cm.self_id.2
      have hinv1 : im.Inv → (im.get_identifier_idx cm.self_id.2).2.Inv :=
        fun hi => (im.get_identifier_idx_spec cm.self_id.2 hi).1
      refine ⟨hmono1.trans hmono, fun hi => hinv (hinv1 hi), ?_, ?_⟩
      · intro e he
        simp only [List.mem_cons] at he
        rcases he with he | he
        · cases he; exact hname
        · exact hentries e he
      · intro m hm
        simp only [List.mem_cons] at hm
        rcases hm with hm | hm
        · subst hm
          refine ⟨rfl, ⟨cm, rfl, rfl⟩, rfl, rfl, rfl, rfl, ?_⟩
          intro hi
          exact hmono _ _ (im.get_identifier_idx_spec cm.self_id.2 hi).2.1
        · obtain ⟨f1, f2, f3, f4, f5, f6, f7⟩ := hms m hm
          exact ⟨f1, f2, f3, f4, f5, f6, fun hi => f7 (hinv1 hi)⟩
    case isFalse hname => exact Except.noConfusion h

/-- Phase 1 of module loading, outer loop. -/
theorem load_modules_all_facts {im : IdentifierMap} {k : Nat} {pkgs : List Package}
    {ms : List Module} {im' : IdentifierMap}
    (h : load_modules_all im k pkgs = .ok (ms, im')) :
    im.Mono im'
    ∧ (im.Inv → im'.Inv)
    ∧ (∀ pkg ∈ pkgs, ∃ mp, pkg.package = some mp
        ∧ ∀ e ∈ mp.serialized_module_map, e.1 = e.2.self_id.2)
    ∧ ∀ m ∈ ms, k ≤ m.package ∧ m.package < k + pkgs.length
        ∧ (∃ cm, m.module = some cm ∧ m.module_id = cm.self_id)
        ∧ m.dependencies = [] ∧ m.structs = [] ∧ m.functions = [] ∧ m.constants = []
        ∧ (im.Inv → im'.identifiers.get? m.name = some m.module_id.2) := by
  induction pkgs generalizing im k ms im' with
  | nil =>
    cases h
    exact ⟨IdentifierMap.Mono.refl im, fun hi => hi, by intro p hp; simp at hp,
      by intro m hm; simp at hm⟩
  | cons pkg rest ih =>
    simp only [load_modules_all] at h
    obtain ⟨mp, hmp, h2⟩ := except_bind_ok_inv h
    obtain ⟨head, hhead, h3⟩ := except_bind_ok_inv h2
    obtain ⟨hd_ms, hd_im⟩ := head
    obtain ⟨tail, htail, h4⟩ := except_bind_ok_inv h3
    obtain ⟨tl_ms, tl_im⟩ := tail
    cases h4
    obtain ⟨hmono1, hinv1, hentries1, hms1⟩ := load_modules_entries_facts hhead
    obtain ⟨hmono2, hinv2, hpkgs2, hms2⟩ := ih htail
    have hmpo : pkg.package = some mp := by
      cases hp : pkg.package with
      | none => rw [hp] at hmp; exact Except.noConfusion hmp
      | some x => rw [hp] at hmp; cases hmp; rfl
    refine ⟨hmono1.trans hmono2, fun hi => hinv2 (hinv1 hi), ?_, ?_⟩
    · intro p hp
      simp only [List.mem_cons] at hp
      rcases hp with hp | hp
      · subst hp; exact ⟨mp, hmpo, hentries1⟩
      · exact hpkgs2 p hp
    · intro m hm
      simp only [List.mem_append] at hm
      rcases hm with hm | hm
      · obtain ⟨hpkg, hcm, hdeps, hstr, hfn, hconst, hname⟩ := hms1 m hm
        refine ⟨Nat.le_of_eq hpkg.symm, ?_, hcm, hdeps, hstr, hfn, hconst, ?_⟩
        · simp only [List.length_cons]
          rw [hpkg]
          exact Nat.lt_add_of_pos_right (Nat.succ_pos rest.length)
        · intro hi
          exact hmono2 _ _ (hname hi)
      · obtain ⟨hk, hlt, hcm, hdeps, hstr, hfn, hconst, hname⟩ := hms2 m hm
        refine ⟨Nat.le_of_succ_le hk, ?_, hcm, hdeps, hstr, hfn, hconst,
          fun hi => hname (hinv1 hi)⟩
        simp only [List.length_cons]
        exact Nat.lt_of_lt_of_le hlt
          (Nat.le_of_eq (by rw [Nat.add_assoc, Nat.add_comm 1 rest.length]))

theorem add_succ_comm (k i : Nat) : (k + 1) + i = k + (i + 1) := by
  rw [Nat.add_assoc, Nat.add_comm 1 i]

/-- Phase 2 of module loading: `self_idx` assignment, package module lists,
map-entry bounds, and the module-name re-check. -/
theorem load_modules_finalize_facts {im : IdentifierMap} {ms : List Module} {idx : Nat}
    {pkgs : List Package} {ms' : List Module} {entries : List (String × ModuleIndex)}
    {pkgs' : List Package}
    (h : load_modules_finalize im ms idx pkgs = .ok (ms', entries, pkgs')) :
    ms'.length = ms.length
    ∧ (∀ i m, ms.get? i = some m → ms'.get? i = some { m with self_idx := idx + i })
    ∧ (∀ e ∈ entries, idx ≤ e.2 ∧ e.2 < idx + ms.length)
    ∧ pkgs'.length = pkgs.length
    ∧ (∀ j p', pkgs'.get? j = some p' → ∃ p, pkgs.get? j = some p ∧ p'.self_idx = p.self_idx
        ∧ p'.id = p.id ∧ p'.package = p.package ∧ p'.version = p.version
        ∧ p'.type_origin = p.type_origin)
    ∧ (∀ j p', pkgs'.get? j = some p' → ∀ v ∈ p'.modules,
        (∃ p, pkgs.get? j = some p ∧ v ∈ p.modules)
        ∨ (idx ≤ v ∧ v - idx < ms.length ∧ ∃ m, ms.get? (v - idx) = some m ∧ m.package = j))
    ∧ (∀ i m, ms.get? i = some m → im.get_identifier m.name = m.module_id.2) := by
  induction ms generalizing idx pkgs ms' entries pkgs' with
  | nil =>
    cases h
    refine ⟨rfl, ?_, ?_, rfl, ?_, ?_, ?_⟩
    · intro i m him; simp at him
    · intro e he; simp at he
    · exact fun j p' hp' => ⟨p', hp', rfl, rfl, rfl, rfl, rfl⟩
    · exact fun j p' hp' v hv => .inl ⟨p', hp', hv⟩
    · intro i m him; simp at him
  | cons module rest ih =>
    simp only [load_modules_finalize] at h
    split at h
    case isFalse hname => exact Except.noConfusion h
    case isTrue hname =>
      obtain ⟨tail, htail, hcons⟩ := except_bind_ok_inv h
      obtain ⟨tms, tentries, tpkgs⟩ := tail
      cases hcons
      obtain ⟨ihlen, ihpt, ihent, ihplen, ihproj, ihmem, ihchk⟩ := ih htail
      have hplen1 : (pkgs.set module.package
          { pkgs.getD module.package default with
            modules := (pkgs.getD module.package default).modules ++ [idx] }).length =
          pkgs.length := List.length_set ..
      refine ⟨by simp [ihlen], ?_, ?_, by rw [ihplen, hplen1], ?_, ?_, ?_⟩
      · intro i m him
        cases i with
        | zero =>
          simp only [List.get?_cons_zero] at him ⊢
          cases him
          rfl
        | succ i =>
          simp only [List.get?_cons_succ] at him ⊢
          have := ihpt i m him
          rwa [add_succ_comm idx i] at this
      · intro e he
        simp only [List.mem_cons] at he
        rcases he with he | he
        · subst he
          refine ⟨Nat.le_refl idx, ?_⟩
          simp only [List.length_cons]
          exact Nat.lt_add_of_pos_right (Nat.succ_pos rest.length)
        · obtain ⟨h1, h2⟩ := ihent e he
          refine ⟨Nat.le_of_succ_le h1, ?_⟩
          simp only [List.length_cons]
          exact Nat.lt_of_lt_of_le h2
            (Nat.le_of_eq (add_succ_comm idx rest.length))
      · intro j p' hp'
        obtain ⟨p1, hp1, e1, e2, e3, e4, e5⟩ := ihproj j p' hp'
        by_cases hj : module.package = j
        · subst hj
          by_cases hrange : module.package < pkgs.length
          · rw [List.get?_set_eq_of_lt _ hrange] at hp1
            cases hp1
            cases hget : pkgs.get? module.package with
            | none => exact absurd (List.get?_eq_none.mp hget) (Nat.not_le_of_lt hrange)
            | some p0 =>
              have hgd : pkgs.getD module.package default = p0 := by
                rw [List.getD_eq_get?, hget]
                rfl
              exact ⟨p0, rfl, by rw [e1, ← hgd], by rw [e2, ← hgd], by rw [e3, ← hgd],
                by rw [e4, ← hgd], by rw [e5, ← hgd]⟩
          · have hnoop : pkgs.set module.package
                { pkgs.getD module.package default with
                  modules := (pkgs.getD module.package default).modules ++ [idx] } = pkgs :=
              List.set_eq_of_length_le (Nat.le_of_not_lt hrange)
            rw [hnoop] at hp1
            exact ⟨p1, hp1, e1, e2, e3, e4, e5⟩
        · rw [List.get?_set_ne _ _ hj] at hp1
          exact ⟨p1, hp1, e1, e2, e3, e4, e5⟩
      · intro j p' hp' v hv
        rcases ihmem j p' hp' v hv with ⟨p1, hp1, hv1⟩ | ⟨h1, h2, m, hm, hmp⟩
        · by_cases hj : module.package = j
          · subst hj
            by_cases hrange : module.package < pkgs.length
            · rw [List.get?_set_eq_of_lt _ hrange] at hp1
              cases hp1
              simp only [List.mem_append, List.mem_singleton] at hv1
              rcases hv1 with hv1 | hv1
              · cases hget : pkgs.get? module.package with
                | none => exact absurd (List.get?_eq_none.mp hget) (Nat.not_le_of_lt hrange)
                | some p0 =>
                  refine .inl ⟨p0, rfl, ?_⟩
                  have hgd : pkgs.getD module.package default = p0 := by
                    rw [List.getD_eq_get?, hget]
                    rfl
                  rwa [hgd] at hv1
              · subst hv1
                refine .inr ⟨Nat.le_refl v, ?_, ?_⟩
                · simp only [Nat.sub_self, List.length_cons]
                  exact Nat.succ_pos rest.length
                · rw [Nat.sub_self]
                  exact ⟨module, rfl, rfl⟩
            · have hnoop : pkgs.set module.package
                  { pkgs.getD module.package default with
                    modules := (pkgs.getD module.package default).modules ++ [idx] } = pkgs :=
                List.set_eq_of_length_le (Nat.le_of_not_lt hrange)
              rw [hnoop] at hp1
              exact .inl ⟨p1, hp1, hv1⟩
          · rw [List.get?_set_ne _ _ hj] at hp1
            exact .inl ⟨p1, hp1, hv1⟩
        · have hpos : 0 < v - idx := Nat.sub_pos_of_lt (Nat.lt_of_succ_le h1)
          have hvidx : v - idx = (v - (idx + 1)) + 1 := by
            rw [← Nat.sub_sub]
            exact (Nat.succ_pred_eq_of_pos hpos).symm
          refine .inr ⟨Nat.le_of_succ_le h1, ?_, ?_⟩
          · simp only [List.length_cons]
            rw [hvidx]
            exact Nat.succ_lt_succ h2
          · rw [hvidx]
            simp only [List.get?_cons_succ]
            exact ⟨m, hm, hmp⟩
      · intro i m him
        cases i with
        | zero =>
          simp only [List.get?_cons_zero] at him
          cases him
          exact hname
        | succ i =>
          simp only [List.get?_cons_succ] at him
          exact ihchk i m him

/-- Phase 1 of struct loading, inner loop over one module's definitions. -/
theorem load_structs_defs_facts (im : IdentifierMap) (pkg_idx mod_idx : Nat)
    (cm : CompiledModule) (d0 : Nat) (defs : List StructDefinition) :
    im.Mono (load_structs_defs im pkg_idx mod_idx cm d0 defs).2
    ∧ (im.Inv → (load_structs_defs im pkg_idx mod_idx cm d0 defs).2.Inv)
    ∧ ∀ s ∈ (load_structs_defs im pkg_idx mod_idx cm d0 defs).1,
        s.package = pkg_idx ∧ s.module = mod_idx ∧ s.fields = []
        ∧ (im.Inv →
            ∃ str, (load_structs_defs im pkg_idx mod_idx cm d0 defs).2.identifiers.get? s.name
              = some str) := by
  induction defs generalizing im d0 with
  | nil =>
    exact ⟨IdentifierMap.Mono.refl im, fun hi => hi, by intro s hs; simp [load_structs_defs] at hs⟩
  | cons struct_def rest ih =>
    simp only [load_structs_defs]
    set sh := cm.struct_handles.getD struct_def.struct_handle default with hsh
    obtain ⟨ihmono, ihinv, ihs⟩ := ih (im.get_identifier_idx sh.name).2 (d0 + 1)
    have hmono1 := im.get_identifier_idx_mono sh.name
    have hinv1 : im.Inv → (im.get_identifier_idx sh.name).2.Inv :=
      fun hi => (im.get_identifier_idx_spec sh.name hi).1
    refine ⟨hmono1.trans ihmono, fun hi => ihinv (hinv1 hi), ?_⟩
    intro s hs
    simp only [List.mem_cons] at hs
    rcases hs with hs | hs
    · subst hs
      refine ⟨rfl, rfl, rfl, ?_⟩
      intro hi
      exact ⟨sh.name, ihmono _ _ (im.get_identifier_idx_spec sh.name hi).2.1⟩
    · obtain ⟨f1, f2, f3, f4⟩ := ihs s hs
      exact ⟨f1, f2, f3, fun hi => f4 (hinv1 hi)⟩

/-- Phase 1 of struct loading, outer loop over the module pool. -/
theorem load_structs_all_facts {im : IdentifierMap} {k : Nat} {mods : List Module}
    {ss : List Struct} {im' : IdentifierMap}
    (h : load_structs_all im k mods = .ok (ss, im')) :
    im.Mono im'
    ∧ (im.Inv → im'.Inv)
    ∧ ∀ s ∈ ss, k ≤ s.module ∧ s.module - k < mods.length
        ∧ (∃ m, mods.get? (s.module - k) = some m ∧ s.package = m.package)
        ∧ s.fields = []
        ∧ (im.Inv → ∃ str, im'.identifiers.get? s.name = some str) := by
  induction mods generalizing im k ss im' with
  | nil =>
    cases h
    exact ⟨IdentifierMap.Mono.refl im, fun hi => hi, by intro s hs; simp at hs⟩
  | cons module rest ih =>
    simp only [load_structs_all] at h
    obtain ⟨cm, hcm, h2⟩ := except_bind_ok_inv h
    split at h2
    case isFalse hname => exact Except.noConfusion h2
    case isTrue hname =>
      obtain ⟨tail, htail, h3⟩ := except_bind_ok_inv h2
      obtain ⟨tss, tim⟩ := tail
      cases h3
      obtain ⟨hmono1, hinv1, hhead⟩ :=
        load_structs_defs_facts im module.package k cm 0 cm.struct_defs
      obtain ⟨hmono2, hinv2, htails⟩ := ih htail
      refine ⟨hmono1.trans hmono2, fun hi => hinv2 (hinv1 hi), ?_⟩
      intro s hs
      simp only [List.mem_append] at hs
      rcases hs with hs | hs
      · obtain ⟨f1, f2, f3, f4⟩ := hhead s hs
        refine ⟨Nat.le_of_eq f2.symm, ?_, ?_, f3, ?_⟩
        · rw [f2, Nat.sub_self]
          simp only [List.length_cons]
          exact Nat.succ_pos rest.length
        · rw [f2, Nat.sub_self]
          exact ⟨module, rfl, f1⟩
        · intro hi
          obtain ⟨str, hstr⟩ := f4 hi
          exact ⟨str, hmono2 _ _ hstr⟩
      · obtain ⟨f1, f2, f3, f4, f5⟩ := htails s hs
        have hpos : 0 < s.module - k := Nat.sub_pos_of_lt (Nat.lt_of_succ_le f1)
        have hsk : s.module - k = (s.module - (k + 1)) + 1 := by
          rw [← Nat.sub_sub]
          exact (Nat.succ_pred_eq_of_pos hpos).symm
        refine ⟨Nat.le_of_succ_le f1, ?_, ?_, f4, fun hi => f5 (hinv1 hi)⟩
        · rw [hsk]
          simp only [List.length_cons]
          exact Nat.succ_lt_succ f2
        · rw [hsk]
          simp only [List.get?_cons_succ]
          exact f3

/-- Phase 2 of struct loading: `self_idx` assignment, module struct lists,
map-entry bounds, and both name re-checks against the defining declaration. -/
theorem load_structs_finalize_facts {im : IdentifierMap} {packages : List Package}
    {ss : List Struct} {idx : Nat} {mods : List Module} {ss' : List Struct}
    {entries : List (String × StructIndex)} {mods' : List Module}
    (h : load_structs_finalize im packages ss idx mods = .ok (ss', entries, mods')) :
    ss'.length = ss.length
    ∧ (∀ i s, ss.get? i = some s → ss'.get? i = some { s with self_idx := idx + i })
    ∧ (∀ e ∈ entries, idx ≤ e.2 ∧ e.2 < idx + ss.length)
    ∧ mods'.length = mods.length
    ∧ (∀ j m', mods'.get? j = some m' → ∃ m, mods.get? j = some m ∧ m'.self_idx = m.self_idx
        ∧ m'.package = m.package ∧ m'.module = m.module ∧ m'.name = m.name
        ∧ m'.module_id = m.module_id ∧ m'.dependencies = m.dependencies
        ∧ m'.functions = m.functions ∧ m'.constants = m.constants)
    ∧ (∀ j m', mods'.get? j = some m' → ∀ v ∈ m'.structs,
        (∃ m, mods.get? j = some m ∧ v ∈ m.structs)
        ∨ (idx ≤ v ∧ v - idx < ss.length ∧ ∃ s, ss.get? (v - idx) = some s ∧ s.module = j))
    ∧ (∀ i s, ss.get? i = some s → ∃ m, mods.get? s.module = some m
        ∧ ∃ cm, m.module = some cm
        ∧ im.get_identifier m.name = (module_struct_name_from_def cm s.def_idx).1
        ∧ im.get_identifier s.name = (module_struct_name_from_def cm s.def_idx).2) := by
  induction ss generalizing idx mods ss' entries mods' with
  | nil =>
    cases h
    refine ⟨rfl, ?_, ?_, rfl, ?_, ?_, ?_⟩
    · intro i s his; simp at his
    · intro e he; simp at he
    · exact fun j m' hm' => ⟨m', hm', rfl, rfl, rfl, rfl, rfl, rfl, rfl, rfl⟩
    · exact fun j m' hm' v hv => .inl ⟨m', hm', hv⟩
    · intro i s his; simp at his
  | cons struct_ rest ih =>
    simp only [load_structs_finalize] at h
    obtain ⟨cm, hcm, h2⟩ := except_bind_ok_inv h
    split at h2
    case isFalse hname => exact Except.noConfusion h2
    case isTrue hname1 =>
      split at h2
      case isFalse hname => exact Except.noConfusion h2
      case isTrue hname2 =>
        obtain ⟨tail, htail, hcons⟩ := except_bind_ok_inv h2
        obtain ⟨tss, tentries, tmods⟩ := tail
        cases hcons
        obtain ⟨ihlen, ihpt, ihent, ihmlen, ihproj, ihmem, ihchk⟩ := ih htail
        have hmod : ∃ m0, mods.get? struct_.module = some m0 ∧ m0.module = some cm := by
          cases hget : mods.get? struct_.module with
          | none =>
            have : mods.getD struct_.module default = default := by
              rw [List.getD_eq_get?, hget]
              rfl
            rw [this] at hcm
            exact Except.noConfusion hcm
          | some m0 =>
            have hgd : mods.getD struct_.module default = m0 := by
              rw [List.getD_eq_get?, hget]
              rfl
            rw [hgd] at hcm
            cases hmm : m0.module with
            | none => rw [hmm] at hcm; exact Except.noConfusion hcm
            | some cm0 =>
              rw [hmm] at hcm
              cases hcm
              exact ⟨m0, rfl, hmm⟩
        obtain ⟨m0, hm0get, hm0cm⟩ := hmod
        have hgd : mods.getD struct_.module default = m0 := by
          rw [List.getD_eq_get?, hm0get]
          rfl
        have hrange : struct_.module < mods.length := get?_lt_length hm0get
        rw [hgd] at hname1
        refine ⟨by simp [ihlen], ?_, ?_, by rw [ihmlen, List.length_set], ?_, ?_, ?_⟩
        · intro i s his
          cases i with
          | zero =>
            simp only [List.get?_cons_zero] at his ⊢
            cases his
            rfl
          | succ i =>
            simp only [List.get?_cons_succ] at his ⊢
            have := ihpt i s his
            rwa [add_succ_comm idx i] at this
        · intro e he
          simp only [List.mem_cons] at he
          rcases he with he | he
          · subst he
            refine ⟨Nat.le_refl idx, ?_⟩
            simp only [List.length_cons]
            exact Nat.lt_add_of_pos_right (Nat.succ_pos rest.length)
          · obtain ⟨h1, h2⟩ := ihent e he
            refine ⟨Nat.le_of_succ_le h1, ?_⟩
            simp only [List.length_cons]
            exact Nat.lt_of_lt_of_le h2 (Nat.le_of_eq (add_succ_comm idx rest.length))
        · intro j m' hm'
          obtain ⟨m1, hm1, e1, e2, e3, e4, e5, e6, e7, e8⟩ := ihproj j m' hm'
          by_cases hj : struct_.module = j
          · subst hj
            rw [hgd, List.get?_set_eq_of_lt _ hrange] at hm1
            cases hm1
            exact ⟨m0, hm0get, e1, e2, e3, e4, e5, e6, e7, e8⟩
          · rw [hgd, List.get?_set_ne _ _ hj] at hm1
            exact ⟨m1, hm1, e1, e2, e3, e4, e5, e6, e7, e8⟩
        · intro j m' hm' v hv
          rcases ihmem j m' hm' v hv with ⟨m1, hm1, hv1⟩ | ⟨h1, h2, s, hs, hsm⟩
          · by_cases hj : struct_.module = j
            · subst hj
              rw [hgd, List.get?_set_eq_of_lt _ hrange] at hm1
              cases hm1
              simp only [List.mem_append, List.mem_singleton] at hv1
              rcases hv1 with hv1 | hv1
              · exact .inl ⟨m0, hm0get, hv1⟩
              · subst hv1
                refine .inr ⟨Nat.le_refl v, ?_, ?_⟩
                · rw [Nat.sub_self]
                  simp only [List.length_cons]
                  exact Nat.succ_pos rest.length
                · rw [Nat.sub_self]
                  exact ⟨struct_, rfl, rfl⟩
            · rw [hgd, List.get?_set_ne _ _ hj] at hm1
              exact .inl ⟨m1, hm1, hv1⟩
          · have hpos : 0 < v - idx := Nat.sub_pos_of_lt (Nat.lt_of_succ_le h1)
            have hvidx : v - idx = (v - (idx + 1)) + 1 := by
              rw [← Nat.sub_sub]
              exact (Nat.succ_pred_eq_of_pos hpos).symm
            refine .inr ⟨Nat.le_of_succ_le h1, ?_, ?_⟩
            · simp only [List.length_cons]
              rw [hvidx]
              exact Nat.succ_lt_succ h2
            · rw [hvidx]
              simp only [List.get?_cons_succ]
              exact ⟨s, hs, hsm⟩
        · intro i s his
          cases i with
          | zero =>
            simp only [List.get?_cons_zero] at his
            cases his
            exact ⟨m0, hm0get, cm, hm0cm, hname1, hname2⟩
          | succ i =>
            simp only [List.get?_cons_succ] at his
            obtain ⟨m1, hm1, cm1, hcm1, hn1, hn2⟩ := ihchk i s his
            by_cases hj : struct_.module = s.module
            · rw [← hj, hgd, List.get?_set_eq_of_lt _ hrange] at hm1
              cases hm1
              exact ⟨m0, hj ▸ hm0get, cm1, hcm1, hn1, hn2⟩
            · rw [hgd, List.get?_set_ne _ _ hj] at hm1
              exact ⟨m1, hm1, cm1, hcm1, hn1, hn2⟩

/-- Field loading, inner loop: interned names and bounded field types. -/
theorem load_field_list_facts {im : IdentifierMap} {tb : TypeBuilder} {module : Module}
    {fds : List FieldDefinition} {fs : List Field} {im' : IdentifierMap} {ns : Nat}
    (hsm : entriesLt tb.struct_map ns)
    (h : load_field_list im tb module fds = .ok (fs, im')) :
    im.Mono im' ∧ (im.Inv → im'.Inv)
    ∧ ∀ f ∈ fs, structsLtB ns f.type_ = true
        ∧ (im.Inv → ∃ str, im'.identifiers.get? f.name = some str) := by
  induction fds generalizing im fs im' with
  | nil =>
    cases h
    exact ⟨IdentifierMap.Mono.refl im, fun hi => hi, by intro f hf; simp at hf⟩
  | cons fd rest ih =>
    simp only [load_field_list] at h
    obtain ⟨t, ht, h2⟩ := except_bind_ok_inv h
    obtain ⟨tail, htail, h3⟩ := except_bind_ok_inv h2
    obtain ⟨tfs, tim⟩ := tail
    cases h3
    obtain ⟨ihmono, ihinv, ihf⟩ := ih htail
    have hmono1 := im.get_identifier_idx_mono fd.name
    have hinv1 : im.Inv → (im.get_identifier_idx fd.name).2.Inv :=
      fun hi => (im.get_identifier_idx_spec fd.name hi).1
    refine ⟨hmono1.trans ihmono, fun hi => ihinv (hinv1 hi), ?_⟩
    intro f hf
    simp only [List.mem_cons] at hf
    rcases hf with hf | hf
    · subst hf
      refine ⟨make_type_ok_bound tb module ns hsm fd.signature t ht, ?_⟩
      intro hi
      exact ⟨fd.name, ihmono _ _ (im.get_identifier_idx_spec fd.name hi).2.1⟩
    · obtain ⟨f1, f2⟩ := ihf f hf
      exact ⟨f1, fun hi => f2 (hinv1 hi)⟩

/-- Field loading, one struct: only the field list changes, its types are
bounded and its names interned. -/
theorem load_fields_one_facts {im : IdentifierMap} {tb : TypeBuilder} {mods : List Module}
    {s s' : Struct} {im' : IdentifierMap} {ns : Nat}
    (hsm : entriesLt tb.struct_map ns)
    (h : load_fields_one im tb mods s = .ok (s', im')) :
    im.Mono im' ∧ (im.Inv → im'.Inv)
    ∧ s'.self_idx = s.self_idx ∧ s'.package = s.package ∧ s'.module = s.module
    ∧ s'.name = s.name ∧ s'.def_idx = s.def_idx
    ∧ ∀ f ∈ s'.fields, structsLtB ns f.type_ = true
        ∧ (im.Inv → ∃ str, im'.identifiers.get? f.name = some str) := by
  simp only [load_fields_one] at h
  obtain ⟨cm, hcm, h2⟩ := except_bind_ok_inv h
  split at h2
  case h_2 => exact Except.noConfusion h2
  case h_1 fields hfi =>
    obtain ⟨loaded, hloaded, h3⟩ := except_bind_ok_inv h2
    obtain ⟨lfs, lim⟩ := loaded
    cases h3
    obtain ⟨hmono, hinv, hf⟩ := load_field_list_facts hsm hloaded
    exact ⟨hmono, hinv, rfl, rfl, rfl, rfl, rfl, hf⟩

/-- Field loading over the whole struct pool. -/
theorem load_fields_facts {ss : List Struct} {im : IdentifierMap} {tb : TypeBuilder}
    {mods : List Module} {ss' : List Struct} {im' : IdentifierMap} {ns : Nat}
    (hsm : entriesLt tb.struct_map ns)
    (h : load_fields ss im tb mods = .ok (ss', im')) :
    im.Mono im' ∧ (im.Inv → im'.Inv)
    ∧ ss'.length = ss.length
    ∧ ∀ i s', ss'.get? i = some s' → ∃ s, ss.get? i = some s
        ∧ s'.self_idx = s.self_idx ∧ s'.package = s.package ∧ s'.module = s.module
        ∧ s'.name = s.name ∧ s'.def_idx = s.def_idx
        ∧ ∀ f ∈ s'.fields, structsLtB ns f.type_ = true
            ∧ (im.Inv → ∃ str, im'.identifiers.get? f.name = some str) := by
  induction ss generalizing im ss' im' with
  | nil =>
    cases h
    exact ⟨IdentifierMap.Mono.refl im, fun hi => hi, rfl, by intro i s' hs'; simp at hs'⟩
  | cons s rest ih =>
    simp only [load_fields] at h
    obtain ⟨head, hhead, h2⟩ := except_bind_ok_inv h
    obtain ⟨hs, him⟩ := head
    obtain ⟨tail, htail, h3⟩ := except_bind_ok_inv h2
    obtain ⟨tss, tim⟩ := tail
    cases h3
    obtain ⟨hmono1, hinv1, e1, e2, e3, e4, e5, hfs⟩ := load_fields_one_facts hsm hhead
    obtain ⟨hmono2, hinv2, hlen, ihs⟩ := ih htail
    refine ⟨hmono1.trans hmono2, fun hi => hinv2 (hinv1 hi), by simp [hlen], ?_⟩
    intro i s' hs'
    cases i with
    | zero =>
      simp only [List.get?_cons_zero] at hs' ⊢
      cases hs'
      refine ⟨s, rfl, e1, e2, e3, e4, e5, ?_⟩
      intro f hf
      obtain ⟨f1, f2⟩ := hfs f hf
      exact ⟨f1, fun hi => (f2 hi).imp (fun str hstr => hmono2 _ _ hstr)⟩
    | succ i =>
      simp only [List.get?_cons_succ] at hs' ⊢
      obtain ⟨s0, hs0, f1, f2, f3, f4, f5, hfields⟩ := ihs i s' hs'
      refine ⟨s0, hs0, f1, f2, f3, f4, f5, ?_⟩
      intro f hf
      obtain ⟨g1, g2⟩ := hfields f hf
      exact ⟨g1, fun hi => g2 (hinv1 hi)⟩

/-- Constant loading, inner loop: bounded constant types. -/
theorem load_constant_list_facts {tb : TypeBuilder} {module : Module} {k : Nat}
    {toks : List SignatureToken} {cs : List Constant} {ns : Nat}
    (hsm : entriesLt tb.struct_map ns)
    (h : load_constant_list tb module k toks = .ok cs) :
    ∀ c ∈ cs, structsLtB ns c.type_ = true := by
  induction toks generalizing k cs with
  | nil => cases h; intro c hc; simp at hc
  | cons tok rest ih =>
    simp only [load_constant_list] at h
    obtain ⟨t, ht, h2⟩ := except_bind_ok_inv h
    obtain ⟨tcs, htcs, h3⟩ := except_bind_ok_inv h2
    cases h3
    intro c hc
    simp only [List.mem_cons] at hc
    rcases hc with hc | hc
    · subst hc
      exact make_type_ok_bound tb module ns hsm tok t ht
    · exact ih htcs c hc

/-- Constant loading over the module pool: only each module's constant list
changes, and the new constants carry bounded types. -/
theorem load_constants_facts {tb : TypeBuilder} {mods mods' : List Module} {ns : Nat}
    (hsm : entriesLt tb.struct_map ns)
    (h : load_constants tb mods = .ok mods') :
    mods'.length = mods.length
    ∧ ∀ i m', mods'.get? i = some m' → ∃ m, mods.get? i = some m
        ∧ m'.self_idx = m.self_idx ∧ m'.package = m.package ∧ m'.module = m.module
        ∧ m'.name = m.name ∧ m'.module_id = m.module_id
        ∧ m'.dependencies = m.dependencies ∧ m'.structs = m.structs
        ∧ m'.functions = m.functions
        ∧ ∀ c ∈ m'.constants, structsLtB ns c.type_ = true := by
  induction mods generalizing mods' with
  | nil =>
    cases h
    exact ⟨rfl, by intro i m' hm'; simp at hm'⟩
  | cons m rest ih =>
    simp only [load_constants] at h
    obtain ⟨cm, hcm, h2⟩ := except_bind_ok_inv h
    obtain ⟨cs, hcs, h3⟩ := except_bind_ok_inv h2
    obtain ⟨tms, htms, h4⟩ := except_bind_ok_inv h3
    cases h4
    obtain ⟨hlen, ihm⟩ := ih htms
    refine ⟨by simp [hlen], ?_⟩
    intro i m' hm'
    cases i with
    | zero =>
      simp only [List.get?_cons_zero] at hm' ⊢
      cases hm'
      exact ⟨m, rfl, rfl, rfl, rfl, rfl, rfl, rfl, rfl, rfl,
        load_constant_list_facts hsm hcs⟩
    | succ i =>
      simp only [List.get?_cons_succ] at hm' ⊢
      exact ihm i m' hm'

/-- Phase 1 of function loading, inner loop: shape of each produced function
(no code yet, bounded signature types, def linkage by position). -/
theorem load_function_defs_facts {im : IdentifierMap} {tb : TypeBuilder} {module : Module}
    {cm : CompiledModule} {d0 : Nat} {fds : List FunctionDefinition} {fs : List Function}
    {im' : IdentifierMap} {ns : Nat}
    (hsm : entriesLt tb.struct_map ns)
    (h : load_function_defs im tb module cm d0 fds = .ok (fs, im')) :
    im.Mono im' ∧ (im.Inv → im'.Inv)
    ∧ ∀ i f, fs.get? i = some f →
        ∃ fd, fds.get? i = some fd
        ∧ f.module = module.self_idx ∧ f.package = module.package ∧ f.def_idx = d0 + i
        ∧ f.code = none
        ∧ listStructsLtB ns f.parameters = true ∧ listStructsLtB ns f.returns = true
        ∧ (im.Inv → ∃ str, im'.identifiers.get? f.name = some str) := by
  induction fds generalizing im d0 fs im' with
  | nil =>
    cases h
    exact ⟨IdentifierMap.Mono.refl im, fun hi => hi, by intro i f hf; simp at hf⟩
  | cons fd rest ih =>
    simp only [load_function_defs] at h
    obtain ⟨params, hparams, h2⟩ := except_bind_ok_inv h
    obtain ⟨rets, hrets, h3⟩ := except_bind_ok_inv h2
    split at h3
    case isFalse hname => exact Except.noConfusion h3
    case isTrue hname =>
      obtain ⟨tail, htail, h4⟩ := except_bind_ok_inv h3
      obtain ⟨tfs, tim⟩ := tail
      cases h4
      set fh := cm.function_handles.getD fd.function default with hfh
      obtain ⟨ihmono, ihinv, ihf⟩ := ih htail
      have hmono1 := im.get_identifier_idx_mono fh.name
      have hinv1 : im.Inv → (im.get_identifier_idx fh.name).2.Inv :=
        fun hi => (im.get_identifier_idx_spec fh.name hi).1
      refine ⟨hmono1.trans ihmono, fun hi => ihinv (hinv1 hi), ?_⟩
      intro i f hf
      cases i with
      | zero =>
        simp only [List.get?_cons_zero] at hf ⊢
        cases hf
        refine ⟨fd, rfl, rfl, rfl, rfl, rfl,
          make_type_list_ok_bound tb module ns hsm _ params hparams,
          make_type_list_ok_bound tb module ns hsm _ rets hrets, ?_⟩
        intro hi
        exact ⟨fh.name, ihmono _ _ (im.get_identifier_idx_spec fh.name hi).2.1⟩
      | succ i =>
        simp only [List.get?_cons_succ] at hf ⊢
        obtain ⟨fd0, hfd0, f1, f2, f3, f4, f5, f6, f7⟩ := ihf i f hf
        exact ⟨fd0, hfd0, f1, f2, by rw [f3, add_succ_comm], f4, f5, f6,
          fun hi => f7 (hinv1 hi)⟩

/-- Phase 1 of function loading, outer loop: every produced function points
back (through the ambient module pool `mods0`) at its defining module and
definition. -/
theorem load_functions_all_facts {im : IdentifierMap} {tb : TypeBuilder}
    {mods0 mods : List Module} {fs : List Function} {im' : IdentifierMap} {ns : Nat}
    (hsm : entriesLt tb.struct_map ns)
    (hmem : ∀ m ∈ mods, mods0.get? m.self_idx = some m)
    (h : load_functions_all im tb mods = .ok (fs, im')) :
    im.Mono im' ∧ (im.Inv → im'.Inv)
    ∧ ∀ f ∈ fs, ∃ m, mods0.get? f.module = some m ∧ f.module = m.self_idx
        ∧ f.package = m.package
        ∧ (∃ cm fd, m.module = some cm ∧ cm.function_defs.get? f.def_idx = some fd)
        ∧ f.code = none
        ∧ listStructsLtB ns f.parameters = true ∧ listStructsLtB ns f.returns = true
        ∧ (im.Inv → ∃ str, im'.identifiers.get? f.name = some str) := by
  induction mods generalizing im fs im' with
  | nil =>
    cases h
    exact ⟨IdentifierMap.Mono.refl im, fun hi => hi, by intro f hf; simp at hf⟩
  | cons module rest ih =>
    simp only [load_functions_all] at h
    obtain ⟨cm, hcm, h2⟩ := except_bind_ok_inv h
    obtain ⟨head, hhead, h3⟩ := except_bind_ok_inv h2
    obtain ⟨hfs, him⟩ := head
    obtain ⟨tail, htail, h4⟩ := except_bind_ok_inv h3
    obtain ⟨tfs, tim⟩ := tail
    cases h4
    have hcmo : module.module = some cm := by
      cases hmm : module.module with
      | none => rw [hmm] at hcm; exact Except.noConfusion hcm
      | some cm0 => rw [hmm] at hcm; cases hcm; rfl
    obtain ⟨hmono1, hinv1, hheadf⟩ := load_function_defs_facts hsm hhead
    obtain ⟨hmono2, hinv2, htailf⟩ :=
      ih (fun m hm => hmem m (List.mem_cons_of_mem module hm)) htail
    refine ⟨hmono1.trans hmono2, fun hi => hinv2 (hinv1 hi), ?_⟩
    intro f hf
    simp only [List.mem_append] at hf
    rcases hf with hf | hf
    · obtain ⟨i, hi⟩ := List.mem_iff_get?.mp hf
      obtain ⟨fd, hfd, f1, f2, f3, f4, f5, f6, f7⟩ := hheadf i f hi
      refine ⟨module, ?_, f1, f2, ⟨cm, fd, hcmo, by rw [f3, Nat.zero_add]; exact hfd⟩, f4, f5, f6, ?_⟩
      · rw [f1]
        exact hmem module (List.mem_cons_self module rest)
      · intro hinv
        obtain ⟨str, hstr⟩ := f7 hinv
        exact ⟨str, hmono2 _ _ hstr⟩
    · obtain ⟨m, g1, g2, g3, g4, g5, g6, g7, g8⟩ := htailf f hf
      exact ⟨m, g1, g2, g3, g4, g5, g6, g7, fun hi => g8 (hinv1 hi)⟩

/-- Phase 2 of function loading: `self_idx` assignment, module function lists,
map-entry bounds, and both name re-checks against the defining declaration. -/
theorem load_functions_finalize_facts {im : IdentifierMap} {tb : TypeBuilder}
    {fs : List Function} {idx : Nat} {mods : List Module} {fs' : List Function}
    {entries : List (String × FunctionIndex)} {mods' : List Module}
    (h : load_functions_finalize im tb fs idx mods = .ok (fs', entries, mods')) :
    fs'.length = fs.length
    ∧ (∀ i f, fs.get? i = some f → fs'.get? i = some { f with self_idx := idx + i })
    ∧ (∀ e ∈ entries, idx ≤ e.2 ∧ e.2 < idx + fs.length)
    ∧ mods'.length = mods.length
    ∧ (∀ j m', mods'.get? j = some m' → ∃ m, mods.get? j = some m ∧ m'.self_idx = m.self_idx
        ∧ m'.package = m.package ∧ m'.module = m.module ∧ m'.name = m.name
        ∧ m'.module_id = m.module_id ∧ m'.dependencies = m.dependencies
        ∧ m'.structs = m.structs ∧ m'.constants = m.constants)
    ∧ (∀ j m', mods'.get? j = some m' → ∀ v ∈ m'.functions,
        (∃ m, mods.get? j = some m ∧ v ∈ m.functions)
        ∨ (idx ≤ v ∧ v - idx < fs.length ∧ ∃ f, fs.get? (v - idx) = some f ∧ f.module = j))
    ∧ (∀ i f, fs.get? i = some f → ∃ m, mods.get? f.module = some m
        ∧ ∃ cm, m.module = some cm
        ∧ im.get_identifier m.name = (module_function_name_from_def cm f.def_idx).1
        ∧ im.get_identifier f.name = (module_function_name_from_def cm f.def_idx).2) := by
  induction fs generalizing idx mods fs' entries mods' with
  | nil =>
    cases h
    refine ⟨rfl, ?_, ?_, rfl, ?_, ?_, ?_⟩
    · intro i f hif; simp at hif
    · intro e he; simp at he
    · exact fun j m' hm' => ⟨m', hm', rfl, rfl, rfl, rfl, rfl, rfl, rfl, rfl⟩
    · exact fun j m' hm' v hv => .inl ⟨m', hm', hv⟩
    · intro i f hif; simp at hif
  | cons function rest ih =>
    simp only [load_functions_finalize] at h
    obtain ⟨cm, hcm, h2⟩ := except_bind_ok_inv h
    split at h2
    case isFalse hname => exact Except.noConfusion h2
    case isTrue hname1 =>
      split at h2
      case isFalse hname => exact Except.noConfusion h2
      case isTrue hname2 =>
        obtain ⟨tail, htail, hcons⟩ := except_bind_ok_inv h2
        obtain ⟨tfs, tentries, tmods⟩ := tail
        cases hcons
        obtain ⟨ihlen, ihpt, ihent, ihmlen, ihproj, ihmem, ihchk⟩ := ih htail
        have hmod : ∃ m0, mods.get? function.module = some m0 ∧ m0.module = some cm := by
          cases hget : mods.get? function.module with
          | none =>
            have hd : mods.getD function.module default = default := by
              rw [List.getD_eq_get?, hget]
              rfl
            rw [hd] at hcm
            exact Except.noConfusion hcm
          | some m0 =>
            have hgd : mods.getD function.module default = m0 := by
              rw [List.getD_eq_get?, hget]
              rfl
            rw [hgd] at hcm
            cases hmm : m0.module with
            | none => rw [hmm] at hcm; exact Except.noConfusion hcm
            | some cm0 =>
              rw [hmm] at hcm
              cases hcm
              exact ⟨m0, rfl, hmm⟩
        obtain ⟨m0, hm0get, hm0cm⟩ := hmod
        have hgd : mods.getD function.module default = m0 := by
          rw [List.getD_eq_get?, hm0get]
          rfl
        have hrange : function.module < mods.length := get?_lt_length hm0get
        rw [hgd] at hname1
        refine ⟨by simp [ihlen], ?_, ?_, by rw [ihmlen, List.length_set], ?_, ?_, ?_⟩
        · intro i f hif
          cases i with
          | zero =>
            simp only [List.get?_cons_zero] at hif ⊢
            cases hif
            rfl
          | succ i =>
            simp only [List.get?_cons_succ] at hif ⊢
            have := ihpt i f hif
            rwa [add_succ_comm idx i] at this
        · intro e he
          simp only [List.mem_cons] at he
          rcases he with he | he
          · subst he
            refine ⟨Nat.le_refl idx, ?_⟩
            simp only [List.length_cons]
            exact Nat.lt_add_of_pos_right (Nat.succ_pos rest.length)
          · obtain ⟨h1, h2⟩ := ihent e he
            refine ⟨Nat.le_of_succ_le h1, ?_⟩
            simp only [List.length_cons]
            exact Nat.lt_of_lt_of_le h2 (Nat.le_of_eq (add_succ_comm idx rest.length))
        · intro j m' hm'
          obtain ⟨m1, hm1, e1, e2, e3, e4, e5, e6, e7, e8⟩ := ihproj j m' hm'
          by_cases hj : function.module = j
          · subst hj
            rw [hgd, List.get?_set_eq_of_lt _ hrange] at hm1
            cases hm1
            exact ⟨m0, hm0get, e1, e2, e3, e4, e5, e6, e7, e8⟩
          · rw [hgd, List.get?_set_ne _ _ hj] at hm1
            exact ⟨m1, hm1, e1, e2, e3, e4, e5, e6, e7, e8⟩
        · intro j m' hm' v hv
          rcases ihmem j m' hm' v hv with ⟨m1, hm1, hv1⟩ | ⟨h1, h2, f, hf, hfm⟩
          · by_cases hj : function.module = j
            · subst hj
              rw [hgd, List.get?_set_eq_of_lt _ hrange] at hm1
              cases hm1
              simp only [List.mem_append, List.mem_singleton] at hv1
              rcases hv1 with hv1 | hv1
              · exact .inl ⟨m0, hm0get, hv1⟩
              · subst hv1
                refine .inr ⟨Nat.le_refl v, ?_, ?_⟩
                · rw [Nat.sub_self]
                  simp only [List.length_cons]
                  exact Nat.succ_pos rest.length
                · rw [Nat.sub_self]
                  exact ⟨function, rfl, rfl⟩
            · rw [hgd, List.get?_set_ne _ _ hj] at hm1
              exact .inl ⟨m1, hm1, hv1⟩
          · have hpos : 0 < v - idx := Nat.sub_pos_of_lt (Nat.lt_of_succ_le h1)
            have hvidx : v - idx = (v - (idx + 1)) + 1 := by
              rw [← Nat.sub_sub]
              exact (Nat.succ_pred_eq_of_pos hpos).symm
            refine .inr ⟨Nat.le_of_succ_le h1, ?_, ?_⟩
            · simp only [List.length_cons]
              rw [hvidx]
              exact Nat.succ_lt_succ h2
            · rw [hvidx]
              simp only [List.get?_cons_succ]
              exact ⟨f, hf, hfm⟩
        · intro i f hif
          cases i with
          | zero =>
            simp only [List.get?_cons_zero] at hif
            cases hif
            exact ⟨m0, hm0get, cm, hm0cm, hname1, hname2⟩
          | succ i =>
            simp only [List.get?_cons_succ] at hif
            obtain ⟨m1, hm1, cm1, hcm1, hn1, hn2⟩ := ihchk i f hif
            by_cases hj : function.module = f.module
            · rw [← hj, hgd, List.get?_set_eq_of_lt _ hrange] at hm1
              cases hm1
              exact ⟨m0, hj ▸ hm0get, cm1, hcm1, hn1, hn2⟩
            · rw [hgd, List.get?_set_ne _ _ hj] at hm1
              exact ⟨m1, hm1, cm1, hcm1, hn1, hn2⟩

/-- Code loading, one function: every field except `code` is preserved; a
definition without a code unit leaves the function untouched; otherwise the
resolved stream is one-to-one, offset-preserving and in-bounds. -/
theorem load_code_one_facts {tb : TypeBuilder} {mods : List Module}
    {fm : List (String × FunctionIndex)} {f f' : Function} {nf ns : Nat}
    (hsm : entriesLt tb.struct_map ns) (hfm : entriesLt fm nf)
    (h : load_code_one tb mods fm f = .ok f') :
    f'.self_idx = f.self_idx ∧ f'.package = f.package ∧ f'.module = f.module
    ∧ f'.name = f.name ∧ f'.def_idx = f.def_idx
    ∧ f'.parameters = f.parameters ∧ f'.returns = f.returns
    ∧ ∃ cm, (mods.getD f.module default).module = some cm
      ∧ ((cm.function_defs.getD f.def_idx default).code = none → f' = f)
      ∧ (∀ cu, (cm.function_defs.getD f.def_idx default).code = some cu →
          ∃ c, f'.code = some c
          ∧ c.code.length = cu.code.length
          ∧ (∀ j, (cu.code.get? j).map raw_cf = (c.code.get? j).map res_cf)
          ∧ listStructsLtB ns c.locals = true
          ∧ ∀ b ∈ c.code, bytecodeOkB nf ns b = true) := by
  simp only [load_code_one] at h
  obtain ⟨cm, hcm, h2⟩ := except_bind_ok_inv h
  have hcmo : (mods.getD f.module default).module = some cm := by
    cases hmm : (mods.getD f.module default).module with
    | none => rw [hmm] at hcm; exact Except.noConfusion hcm
    | some cm0 => rw [hmm] at hcm; cases hcm; rfl
  cases hcode : (cm.function_defs.getD f.def_idx default).code with
  | none =>
    rw [hcode] at h2
    cases h2
    exact ⟨rfl, rfl, rfl, rfl, rfl, rfl, rfl, cm, hcmo, fun _ => rfl,
      fun cu hcu => absurd (hcode ▸ hcu) (by simp)⟩
  | some cu =>
    rw [hcode] at h2
    obtain ⟨locals, hlocals, h3⟩ := except_bind_ok_inv h2
    obtain ⟨code, hcodes, h4⟩ := except_bind_ok_inv h3
    cases h4
    obtain ⟨hlen, hpt⟩ := load_bytecodes_ok_facts hcodes
    refine ⟨rfl, rfl, rfl, rfl, rfl, rfl, rfl, cm, hcmo,
      fun hnone => absurd (hnone ▸ hcode) (by simp), ?_⟩
    intro cu0 hcu0
    rw [hcode] at hcu0
    cases hcu0
    refine ⟨{ locals := locals, code := code }, rfl, hlen, ?_,
      make_type_list_ok_bound tb _ ns hsm _ locals hlocals, ?_⟩
    · intro j
      cases hj : cu.code.get? j with
      | none =>
        have hlenle : cu.code.length ≤ j := List.get?_eq_none.mp hj
        have : code.get? j = none := List.get?_eq_none.mpr (by rw [hlen]; exact hlenle)
        rw [this]
        rfl
      | some bc =>
        obtain ⟨b, hb, hload⟩ := hpt j bc hj
        rw [hb]
        simp only [Option.map_some']
        rw [(load_bytecode_ok_facts hsm hfm hload).2]
    · intro b hb
      obtain ⟨j, hj⟩ := List.mem_iff_get?.mp hb
      have hjlt : j < code.length := get?_lt_length hj
      have hjlt' : j < cu.code.length := by rw [← hlen]; exact hjlt
      cases hbc : cu.code.get? j with
      | none => exact absurd (List.get?_eq_none.mp hbc) (Nat.not_le_of_lt hjlt')
      | some bc =>
        obtain ⟨b', hb', hload⟩ := hpt j bc hbc
        rw [hj] at hb'
        cases hb'
        exact (load_bytecode_ok_facts hsm hfm hload).1

/-- Code loading over the function pool: positional, preserving everything
except `code`. -/
theorem load_code_facts {fs : List Function} {tb : TypeBuilder} {mods : List Module}
    {fm : List (String × FunctionIndex)} {fs' : List Function}
    (h : load_code fs tb mods fm = .ok fs') :
    fs'.length = fs.length
    ∧ ∀ i f', fs'.get? i = some f' → ∃ f, fs.get? i = some f
        ∧ load_code_one tb mods fm f = .ok f' := by
  induction fs generalizing fs' with
  | nil =>
    cases h
    exact ⟨rfl, by intro i f' hf'; simp at hf'⟩
  | cons f rest ih =>
    simp only [load_code] at h
    obtain ⟨f1, hf1, h2⟩ := except_bind_ok_inv h
    obtain ⟨tfs, htfs, h3⟩ := except_bind_ok_inv h2
    cases h3
    obtain ⟨hlen, hpt⟩ := ih htfs
    refine ⟨by simp [hlen], ?_⟩
    intro i f' hf'
    cases i with
    | zero =>
      simp only [List.get?_cons_zero] at hf' ⊢
      cases hf'
      exact ⟨f, rfl, hf1⟩
    | succ i =>
      simp only [List.get?_cons_succ] at hf' ⊢
      exact hpt i f' hf'

theorem load_modules_inv {im : IdentifierMap} {pkgs : List Package}
    {ms : List Module} {mmap : List (String × ModuleIndex)} {pkgs' : List Package}
    {im' : IdentifierMap}
    (h : load_modules im pkgs = .ok (ms, mmap, pkgs', im')) :
    ∃ ms0 entries, load_modules_all im 0 pkgs = .ok (ms0, im')
      ∧ load_modules_finalize im' ms0 0 pkgs = .ok (ms, entries, pkgs')
      ∧ mmap = collectMap entries := by
  simp only [load_modules] at h
  obtain ⟨p1, hp1, h2⟩ := except_bind_ok_inv h
  obtain ⟨ms0, im1⟩ := p1
  obtain ⟨p2, hp2, h3⟩ := except_bind_ok_inv h2
  obtain ⟨ms1, entries, pkgs1⟩ := p2
  cases h3
  exact ⟨ms0, entries, hp1, hp2, rfl⟩

theorem load_structs_inv {im : IdentifierMap} {mods : List Module} {pkgs : List Package}
    {ss : List Struct} {smap : List (String × StructIndex)} {mods' : List Module}
    {im' : IdentifierMap}
    (h : load_structs im mods pkgs = .ok (ss, smap, mods', im')) :
    ∃ ss0 entries, load_structs_all im 0 mods = .ok (ss0, im')
      ∧ load_structs_finalize im' pkgs ss0 0 mods = .ok (ss, entries, mods')
      ∧ smap = collectMap entries := by
  simp only [load_structs] at h
  obtain ⟨p1, hp1, h2⟩ := except_bind_ok_inv h
  obtain ⟨ss0, im1⟩ := p1
  obtain ⟨p2, hp2, h3⟩ := except_bind_ok_inv h2
  obtain ⟨ss1, entries, mods1⟩ := p2
  cases h3
  exact ⟨ss0, entries, hp1, hp2, rfl⟩

theorem load_functions_inv {im : IdentifierMap} {mods : List Module} {tb : TypeBuilder}
    {fs : List Function} {fmap : List (String × FunctionIndex)} {mods' : List Module}
    {im' : IdentifierMap}
    (h : load_functions im mods tb = .ok (fs, fmap, mods', im')) :
    ∃ fs0 entries, load_functions_all im tb mods = .ok (fs0, im')
      ∧ load_functions_finalize im' tb fs0 0 mods = .ok (fs, entries, mods')
      ∧ fmap = collectMap entries := by
  simp only [load_functions] at h
  obtain ⟨p1, hp1, h2⟩ := except_bind_ok_inv h
  obtain ⟨fs0, im1⟩ := p1
  obtain ⟨p2, hp2, h3⟩ := except_bind_ok_inv h2
  obtain ⟨fs1, entries, mods1⟩ := p2
  cases h3
  exact ⟨fs0, entries, hp1, hp2, rfl⟩

theorem build_environment_inv {input : List MovePackage} {env : GlobalEnv}
    (h : build_environment input = .ok env) :
    ∃ (mods1 : List Module) (mmap : List (String × ModuleIndex)) (pkgs1 : List Package)
      (im1 : IdentifierMap) (ss1 : List Struct) (smap : List (String × StructIndex))
      (mods2 : List Module) (im2 : IdentifierMap) (ss2 : List Struct) (im3 : IdentifierMap)
      (mods3 : List Module) (fs1 : List Function) (fmap : List (String × FunctionIndex))
      (mods4 : List Module) (im4 : IdentifierMap) (fs2 : List Function),
      load_modules IdentifierMap.new (load_packages input).1 = .ok (mods1, mmap, pkgs1, im1)
      ∧ load_structs im1 mods1 pkgs1 = .ok (ss1, smap, mods2, im2)
      ∧ load_fields ss1 im2 { packages := pkgs1, struct_map := smap } mods2 = .ok (ss2, im3)
      ∧ load_constants { packages := pkgs1, struct_map := smap } mods2 = .ok mods3
      ∧ load_functions im3 mods3 { packages := pkgs1, struct_map := smap }
          = .ok (fs1, fmap, mods4, im4)
      ∧ load_code fs1 { packages := pkgs1, struct_map := smap } mods4 fmap = .ok fs2
      ∧ env = { packages := pkgs1, modules := mods4, functions := fs2, structs := ss2,
                identifiers := im4.identifiers, package_map := (load_packages input).2,
                module_map := mmap, function_map := fmap, struct_map := smap,
                identifier_map := im4.identifier_map } := by
  simp only [build_environment] at h
  obtain ⟨mr, hmr, h2⟩ := except_bind_ok_inv h
  obtain ⟨mods1, mmap, pkgs1, im1⟩ := mr
  obtain ⟨sr, hsr, h3⟩ := except_bind_ok_inv h2
  obtain ⟨ss1, smap, mods2, im2⟩ := sr
  obtain ⟨fr, hfr, h4⟩ := except_bind_ok_inv h3
  obtain ⟨ss2, im3⟩ := fr
  obtain ⟨mods3, hmods3, h5⟩ := except_bind_ok_inv h4
  obtain ⟨fnr, hfnr, h6⟩ := except_bind_ok_inv h5
  obtain ⟨fs1, fmap, mods4, im4⟩ := fnr
  obtain ⟨fs2, hfs2, h7⟩ := except_bind_ok_inv h6
  cases h7
  exact ⟨mods1, mmap, pkgs1, im1, ss1, smap, mods2, im2, ss2, im3, mods3, fs1, fmap,
    mods4, im4, fs2, hmr, hsr, hfr, hmods3, hfnr, hfs2, rfl⟩

theorem get?_some_of_lt {α : Type} {l : List α} {i : Nat} (h : i < l.length) :
    ∃ a, l.get? i = some a :=
  ⟨l.get ⟨i, h⟩, List.get?_eq_get h⟩

/-- Everything a successful build guarantees about its environment (shared by
the claims about invariants, code shape, and name integrity). -/
structure EnvFacts (input : List MovePackage) (env : GlobalEnv) : Prop where
  pkg_self : ∀ i p, env.packages.get? i = some p → p.self_idx = i
  mod_self : ∀ i m, env.modules.get? i = some m → m.self_idx = i
  struct_self : ∀ i s, env.structs.get? i = some s → s.self_idx = i
  fn_self : ∀ i f, env.functions.get? i = some f → f.self_idx = i
  pkg_mods : ∀ i p, env.packages.get? i = some p → ∀ v ∈ p.modules,
      ∃ m, env.modules.get? v = some m ∧ m.package = i
  mod_structs : ∀ i m, env.modules.get? i = some m → ∀ v ∈ m.structs,
      ∃ s, env.structs.get? v = some s ∧ s.module = i ∧ s.package = m.package
  mod_fns : ∀ i m, env.modules.get? i = some m → ∀ v ∈ m.functions,
      ∃ f, env.functions.get? v = some f ∧ f.module = i ∧ f.package = m.package
  deps_empty : ∀ m ∈ env.modules, m.dependencies = []
  check : checkEnv env = true
  code_facts : ∀ k f, env.functions.get? k = some f →
      ∃ m cm, env.modules.get? f.module = some m ∧ m.module = some cm
      ∧ ((cm.function_defs.getD f.def_idx default).code = none → f.code = none)
      ∧ (∀ cu, (cm.function_defs.getD f.def_idx default).code = some cu →
          ∃ c, f.code = some c ∧ c.code.length = cu.code.length
          ∧ ∀ j, (cu.code.get? j).map raw_cf = (c.code.get? j).map res_cf)
  input_names : ∀ pkg ∈ input, ∀ e ∈ pkg.serialized_module_map, e.1 = e.2.self_id.2
  mod_names : ∀ m ∈ env.modules, env.identifiers.getD m.name "" = m.module_id.2
  struct_names : ∀ k s, env.structs.get? k = some s →
      ∃ m cm, env.modules.get? s.module = some m ∧ m.module = some cm
      ∧ module_struct_name_from_def cm s.def_idx =
          (env.identifiers.getD m.name "", env.identifiers.getD s.name "")
  fn_names : ∀ k f, env.functions.get? k = some f →
      ∃ m cm, env.modules.get? f.module = some m ∧ m.module = some cm
      ∧ module_function_name_from_def cm f.def_idx =
          (env.identifiers.getD m.name "", env.identifiers.getD f.name "")

theorem build_ok_facts {input : List MovePackage} {env : GlobalEnv}
    (h : build_environment input = .ok env) : EnvFacts input env := by
  obtain ⟨mods1, mmap, pkgs1, im1, ss1, smap, mods2, im2, ss2, im3, mods3, fs1, fmap,
    mods4, im4, fs2, hmr, hsr, hfr, hmods3, hfnr, hfs2, henv⟩ := build_environment_inv h
  subst henv
  -- packages
  have hpk0 : (load_packages input).1 = load_packages_rec 0 input := rfl
  have P0 := load_packages_rec_facts input 0
  rw [← hpk0] at P0
  -- modules phases
  obtain ⟨mods0, entriesM, hall_m, hfin_m, hmmap⟩ := load_modules_inv hmr
  obtain ⟨monoM, invM, inputN, M1⟩ := load_modules_all_facts hall_m
  obtain ⟨hlenM, hptM, hentM, hlenP, hprojP, hmemP, hchkM⟩ := load_modules_finalize_facts hfin_m
  -- structs phases
  obtain ⟨ss0, entriesS, hall_s, hfin_s, hsmap⟩ := load_structs_inv hsr
  obtain ⟨monoS, invS, S1⟩ := load_structs_all_facts hall_s
  obtain ⟨hlenS, hptS, hentS, hlenM2, hprojM2, hmemM2, hchkS⟩ := load_structs_finalize_facts hfin_s
  -- intern-table invariants
  have hinv1 : im1.Inv := invM IdentifierMap.new_inv
  have hinv2 : im2.Inv := invS hinv1
  -- struct-map bound
  have hsm : entriesLt smap ss0.length := by
    rw [hsmap]
    refine entriesLt_collect ?_
    intro e he
    have := (hentS e he).2
    rwa [Nat.zero_add] at this
  -- fields
  obtain ⟨monoF, invF, hlenS2, F1⟩ := load_fields_facts hsm hfr
  have hinv3 : im3.Inv := invF hinv2
  -- constants
  obtain ⟨hlenM3, C1f⟩ := load_constants_facts hsm hmods3
  -- self-idx chains for modules
  have hself1 : ∀ i m, mods1.get? i = some m → m.self_idx = i := by
    intro i m hm
    have hi : i < mods0.length := by rw [← hlenM]; exact get?_lt_length hm
    obtain ⟨m0, hm0⟩ := get?_some_of_lt hi
    have := hptM i m0 hm0
    rw [hm] at this
    cases this
    exact Nat.zero_add i
  have hself2 : ∀ i m, mods2.get? i = some m → m.self_idx = i := by
    intro i m hm
    obtain ⟨m1, hm1, e1, _⟩ := hprojM2 i m hm
    rw [e1]
    exact hself1 i m1 hm1
  have hself3 : ∀ i m, mods3.get? i = some m → m.self_idx = i := by
    intro i m hm
    obtain ⟨m2, hm2, e1, _⟩ := C1f i m hm
    rw [e1]
    exact hself2 i m2 hm2
  have hmem3 : ∀ m ∈ mods3, mods3.get? m.self_idx = some m := by
    intro m hm
    obtain ⟨j, hj⟩ := List.mem_iff_get?.mp hm
    rw [hself3 j m hj]
    exact hj
  -- functions phases
  obtain ⟨fs0, entriesF, hall_f, hfin_f, hfmap⟩ := load_functions_inv hfnr
  obtain ⟨monoFn, invFn, FN1⟩ := load_functions_all_facts hsm hmem3 hall_f
  obtain ⟨hlenF, hptF, hentF, hlenM4, hprojM4, hmemM4, hchkF⟩ := load_functions_finalize_facts hfin_f
  have hinv4 : im4.Inv := invFn hinv3
  -- function-map bound
  have hfm : entriesLt fmap fs0.length := by
    rw [hfmap]
    refine entriesLt_collect ?_
    intro e he
    have := (hentF e he).2
    rwa [Nat.zero_add] at this
  -- code
  obtain ⟨hlenC, CODE⟩ := load_code_facts hfs2
  -- lengths
  have hnm : mods4.length = mods0.length := by rw [hlenM4, hlenM3, hlenM2, hlenM]
  have hns : ss2.length = ss0.length := by rw [hlenS2, hlenS]
  have hnf : fs2.length = fs0.length := by rw [hlenC, hlenF]
  have hnp : pkgs1.length = input.length := by rw [hlenP]; exact P0.1
  -- identifier monotonicity to the final table
  have mono14 : im1.Mono im4 := (monoS.trans monoF).trans monoFn
  have mono24 : im2.Mono im4 := monoF.trans monoFn
  have mono34 : im3.Mono im4 := monoFn
  -- pointwise: fs1 entries
  have hfs1pt : ∀ i f, fs1.get? i = some f → ∃ f0, fs0.get? i = some f0
      ∧ f = { f0 with self_idx := i } := by
    intro i f hf
    have hi : i < fs0.length := by rw [← hlenF]; exact get?_lt_length hf
    obtain ⟨f0, hf0⟩ := get?_some_of_lt hi
    have := hptF i f0 hf0
    rw [hf] at this
    cases this
    exact ⟨f0, hf0, by rw [Nat.zero_add]⟩
  -- pointwise: ss1 entries
  have hss1pt : ∀ i s, ss1.get? i = some s → ∃ s0, ss0.get? i = some s0
      ∧ s = { s0 with self_idx := i } := by
    intro i s hs
    have hi : i < ss0.length := by rw [← hlenS]; exact get?_lt_length hs
    obtain ⟨s0, hs0⟩ := get?_some_of_lt hi
    have := hptS i s0 hs0
    rw [hs] at this
    cases this
    exact ⟨s0, hs0, by rw [Nat.zero_add]⟩
  -- pointwise: mods1 entries
  have hm1pt : ∀ i m, mods1.get? i = some m → ∃ m0, mods0.get? i = some m0
      ∧ m = { m0 with self_idx := i } := by
    intro i m hm
    have hi : i < mods0.length := by rw [← hlenM]; exact get?_lt_length hm
    obtain ⟨m0, hm0⟩ := get?_some_of_lt hi
    have := hptM i m0 hm0
    rw [hm] at this
    cases this
    exact ⟨m0, hm0, by rw [Nat.zero_add]⟩
  -- pkgs1 entries
  have hp1pt : ∀ i p, pkgs1.get? i = some p → ∃ mp, input.get? i = some mp
      ∧ p.self_idx = i ∧ p.id = mp.id ∧ p.package = some mp ∧ p.type_origin = mp.type_origin_map := by
    intro i p hp
    obtain ⟨p0, hp0, e1, e2, e3, e4, e5⟩ := hprojP i p hp
    obtain ⟨mp, hmp, f1, f2, f3, f4, f5, f6⟩ := P0.2 i p0 hp0
    exact ⟨mp, hmp, by rw [e1, f1, Nat.zero_add], by rw [e2, f2], by rw [e3, f3],
      by rw [e5, f5]⟩
  -- composed module projections
  have hproj42 : ∀ j m', mods4.get? j = some m' → ∃ m2, mods2.get? j = some m2
      ∧ m'.self_idx = m2.self_idx ∧ m'.package = m2.package ∧ m'.module = m2.module
      ∧ m'.name = m2.name ∧ m'.module_id = m2.module_id ∧ m'.dependencies = m2.dependencies
      ∧ m'.structs = m2.structs := by
    intro j m' hm'
    obtain ⟨m3, hm3, a1, a2, a3, a4, a5, a6, a7, a8⟩ := hprojM4 j m' hm'
    obtain ⟨m2, hm2, b1, b2, b3, b4, b5, b6, b7, b8, _⟩ := C1f j m3 hm3
    exact ⟨m2, hm2, a1.trans b1, a2.trans b2, a3.trans b3, a4.trans b4, a5.trans b5,
      a6.trans b6, a7.trans b7⟩
  have hproj40 : ∀ j m', mods4.get? j = some m' → ∃ m0, mods0.get? j = some m0
      ∧ m'.package = m0.package ∧ m'.module = m0.module ∧ m'.name = m0.name
      ∧ m'.module_id = m0.module_id ∧ m'.dependencies = m0.dependencies := by
    intro j m' hm'
    obtain ⟨m2, hm2, _, b2, b3, b4, b5, b6, _⟩ := hproj42 j m' hm'
    obtain ⟨m1, hm1, _, c2, c3, c4, c5, c6, _, _⟩ := hprojM2 j m2 hm2
    obtain ⟨m0, hm0, heq⟩ := hm1pt j m1 hm1
    subst heq
    exact ⟨m0, hm0, b2.trans c2, b3.trans c3, b4.trans c4, b5.trans c5, b6.trans c6⟩
  refine ⟨?_, ?_, ?_, ?_, ?_, ?_, ?_, ?_, ?_, ?_, ?_, ?_, ?_, ?_⟩
  · -- pkg_self
    intro i p hp
    exact (hp1pt i p hp).choose_spec.2.1
  · -- mod_self
    intro i m hm
    obtain ⟨m3, hm3, a1, _⟩ := hprojM4 i m hm
    rw [a1]
    exact hself3 i m3 hm3
  · -- struct_self
    intro i s hs
    obtain ⟨s1, hs1, e1, _⟩ := F1 i s hs
    obtain ⟨s0, hs0, hseq⟩ := hss1pt i s1 hs1
    rw [e1, hseq]
  · -- fn_self
    intro i f hf
    obtain ⟨f1, hf1, hone⟩ := CODE i f hf
    obtain ⟨c1, _⟩ := load_code_one_facts hsm hfm hone
    obtain ⟨f0, hf0, hfeq⟩ := hfs1pt i f1 hf1
    rw [c1, hfeq]
  · -- pkg_mods
    intro i p hp v hv
    rcases hmemP i p hp v hv with ⟨p0, hp0, hvmem⟩ | ⟨_, h2, m0, hm0, hm0p⟩
    · obtain ⟨mp, hmp, f1, f2, f3, f4, f5, f6⟩ := P0.2 i p0 hp0
      rw [f6] at hvmem
      simp at hvmem
    · rw [Nat.sub_zero] at h2 hm0
      have hvlt : v < mods4.length := by rw [hnm]; exact h2
      obtain ⟨m4, hm4⟩ := get?_some_of_lt hvlt
      refine ⟨m4, hm4, ?_⟩
      obtain ⟨m0', hm0', p2, _⟩ := hproj40 v m4 hm4
      have he : m0' = m0 := Option.some.inj (hm0'.symm.trans hm0)
      rw [p2, he, hm0p]
  · -- mod_structs
    intro i m hm v hv
    obtain ⟨m2, hm2, _, b2, _, _, _, _, b7⟩ := hproj42 i m hm
    rw [b7] at hv
    rcases hmemM2 i m2 hm2 v hv with ⟨m1, hm1, hv1⟩ | ⟨_, h2, s0, hs0, hs0m⟩
    · obtain ⟨m0, hm0, heq⟩ := hm1pt i m1 hm1
      subst heq
      have hstr0 := (M1 m0 (List.get?_mem hm0)).2.2.2.2.1
      simp only at hv1
      rw [hstr0] at hv1
      simp at hv1
    · rw [Nat.sub_zero] at h2 hs0
      have hvlt : v < ss2.length := by rw [hns]; exact h2
      obtain ⟨s2, hs2⟩ := get?_some_of_lt hvlt
      obtain ⟨s1, hs1, d1, d2, d3, d4, d5, _⟩ := F1 v s2 hs2
      obtain ⟨s0', hs0', hseq⟩ := hss1pt v s1 hs1
      have he : s0' = s0 := Option.some.inj (hs0'.symm.trans hs0)
      subst he
      refine ⟨s2, hs2, ?_, ?_⟩
      · rw [d3, hseq]
        exact hs0m
      · obtain ⟨_, _, ⟨m1', hm1', hpack⟩, _⟩ := S1 s0' (List.get?_mem hs0')
        rw [Nat.sub_zero, hs0m] at hm1'
        obtain ⟨m1x, hm1x, _, c2, _⟩ := hprojM2 i m2 hm2
        have he2 : m1x = m1' := Option.some.inj (hm1x.symm.trans hm1')
        rw [d2, hseq]
        show s0'.package = m.package
        rw [hpack, b2, c2, he2]
  · -- mod_fns
    intro i m hm v hv
    obtain ⟨m3, hm3, _, a2, _, _, _, _, _, a8⟩ := hprojM4 i m hm
    rcases hmemM4 i m hm v hv with ⟨m3', hm3', hv1⟩ | ⟨_, h2, f0, hf0, hf0m⟩
    · have he : m3' = m3 := Option.some.inj (hm3'.symm.trans hm3)
      subst he
      obtain ⟨m2, hm2, _, _, _, _, _, _, _, b8, _⟩ := C1f i m3' hm3'
      obtain ⟨m1, hm1, _, _, _, _, _, _, c7, _⟩ := hprojM2 i m2 hm2
      obtain ⟨m0, hm0, heq⟩ := hm1pt i m1 hm1
      subst heq
      have hfn0 := (M1 m0 (List.get?_mem hm0)).2.2.2.2.2.1
      rw [b8, c7] at hv1
      simp only at hv1
      rw [hfn0] at hv1
      simp at hv1
    · rw [Nat.sub_zero] at h2 hf0
      have hvlt : v < fs2.length := by rw [hnf]; exact h2
      obtain ⟨f2x, hf2x⟩ := get?_some_of_lt hvlt
      obtain ⟨f1x, hf1x, honex⟩ := CODE v f2x hf2x
      obtain ⟨_, cc2, cc3, _⟩ := load_code_one_facts hsm hfm honex
      obtain ⟨f0x, hf0x, hfeqx⟩ := hfs1pt v f1x hf1x
      have he : f0x = f0 := Option.some.inj (hf0x.symm.trans hf0)
      subst he
      refine ⟨f2x, hf2x, ?_, ?_⟩
      · rw [cc3, hfeqx]
        exact hf0m
      · obtain ⟨m3x, hm3x, _, hpackx, _⟩ := FN1 f0x (List.get?_mem hf0x)
        rw [hf0m] at hm3x
        have he2 : m3x = m3 := Option.some.inj (hm3x.symm.trans hm3)
        rw [cc2, hfeqx]
        show f0x.package = m.package
        rw [hpackx, a2, he2]
  · -- deps_empty
    intro m hm
    obtain ⟨j, hj⟩ := List.mem_iff_get?.mp hm
    obtain ⟨m0, hm0, _, _, _, _, d6⟩ := hproj40 j m hj
    rw [d6]
    exact (M1 m0 (List.get?_mem hm0)).2.2.2.1
  · -- check
    simp only [checkEnv, Bool.and_eq_true, List.all_eq_true, decide_eq_true_eq]
    refine ⟨⟨⟨⟨⟨⟨⟨⟨?_, ?_⟩, ?_⟩, ?_⟩, ?_⟩, ?_⟩, ?_⟩, ?_⟩, ?_⟩
    · -- packages: module indices in range
      intro p hp v hv
      obtain ⟨j, hj⟩ := List.mem_iff_get?.mp hp
      rcases hmemP j p hj v hv with ⟨p0, hp0, hvmem⟩ | ⟨_, h2, m0, hm0, _⟩
      · obtain ⟨mp, _, _, _, _, _, _, f6⟩ := P0.2 j p0 hp0
        rw [f6] at hvmem
        simp at hvmem
      · rw [Nat.sub_zero] at h2
        rw [hnm]
        exact h2
    · -- modules
      intro m hm
      obtain ⟨j, hj⟩ := List.mem_iff_get?.mp hm
      obtain ⟨m0, hm0, d2, d3, d4, d5, d6⟩ := hproj40 j m hj
      obtain ⟨hle, hltp, _, hdeps, _, _, _, hname⟩ := M1 m0 (List.get?_mem hm0)
      refine ⟨⟨⟨⟨⟨?_, ?_⟩, ?_⟩, ?_⟩, ?_⟩, ?_⟩
      · rw [d2, hlenP]
        rw [Nat.zero_add] at hltp
        exact hltp
      · have hn1 := hname IdentifierMap.new_inv
        have hn4 := mono14 _ _ hn1
        rw [d4]
        exact get?_lt_length hn4
      · intro v hv
        obtain ⟨m2, hm2, _, _, _, _, _, _, b7⟩ := hproj42 j m hj
        rw [b7] at hv
        rcases hmemM2 j m2 hm2 v hv with ⟨m1, hm1, hv1⟩ | ⟨_, h2, _, _, _⟩
        · obtain ⟨m0x, hm0x, heq⟩ := hm1pt j m1 hm1
          subst heq
          have hstr0 := (M1 m0x (List.get?_mem hm0x)).2.2.2.2.1
          simp only at hv1
          rw [hstr0] at hv1
          simp at hv1
        · rw [Nat.sub_zero] at h2
          rw [hns]
          exact h2
      · intro v hv
        rcases hmemM4 j m hj v hv with ⟨m3', hm3', hv1⟩ | ⟨_, h2, _, _, _⟩
        · obtain ⟨m2, hm2, _, _, _, _, _, _, _, b8, _⟩ := C1f j m3' hm3'
          obtain ⟨m1, hm1, _, _, _, _, _, _, c7, _⟩ := hprojM2 j m2 hm2
          obtain ⟨m0x, hm0x, heq⟩ := hm1pt j m1 hm1
          subst heq
          have hfn0 := (M1 m0x (List.get?_mem hm0x)).2.2.2.2.2.1
          rw [b8, c7] at hv1
          simp only at hv1
          rw [hfn0] at hv1
          simp at hv1
        · rw [Nat.sub_zero] at h2
          rw [hnf]
          exact h2
      · intro v hv
        rw [d6, hdeps] at hv
        simp at hv
      · intro c hc
        obtain ⟨m3, hm3, _, _, _, _, _, _, _, a8⟩ := hprojM4 j m hj
        obtain ⟨m2, hm2, _, _, _, _, _, _, _, _, hconsts⟩ := C1f j m3 hm3
        rw [a8] at hc
        rw [hns]
        exact hconsts c hc
    · -- structs
      intro s hs
      obtain ⟨k, hk⟩ := List.mem_iff_get?.mp hs
      obtain ⟨s1, hs1, d1, d2, d3, d4, d5, hfields⟩ := F1 k s hk
      obtain ⟨s0, hs0, hseq⟩ := hss1pt k s1 hs1
      obtain ⟨_, hsmlt, ⟨m1, hm1, hpack⟩, _, hsname⟩ := S1 s0 (List.get?_mem hs0)
      rw [Nat.sub_zero] at hsmlt hm1
      obtain ⟨m0, hm0, heqm⟩ := hm1pt s0.module m1 hm1
      refine ⟨⟨⟨?_, ?_⟩, ?_⟩, ?_⟩
      · have hplt := (M1 m0 (List.get?_mem hm0)).2.1
        rw [Nat.zero_add] at hplt
        rw [d2, hseq]
        show s0.package < pkgs1.length
        rw [hpack, heqm, hlenP]
        exact hplt
      · rw [d3, hseq]
        show s0.module < mods4.length
        rw [hnm, ← hlenM]
        exact hsmlt
      · obtain ⟨str, hstr⟩ := hsname hinv1
        have hs4 := mono24 _ _ hstr
        rw [d4, hseq]
        show s0.name < im4.identifiers.length
        exact get?_lt_length hs4
      · intro fld hfld
        obtain ⟨hft, hfn⟩ := hfields fld hfld
        obtain ⟨str, hstr⟩ := hfn hinv2
        have hs4 := mono34 _ _ hstr
        refine ⟨get?_lt_length hs4, ?_⟩
        rw [hns]
        exact hft
    · -- functions
      intro f hf
      obtain ⟨k, hk⟩ := List.mem_iff_get?.mp hf
      obtain ⟨f1, hf1, hone⟩ := CODE k f hk
      obtain ⟨_, cc2, cc3, cc4, cc5, cc6, cc7, cm, hcmo, hnone, hsome⟩ :=
        load_code_one_facts hsm hfm hone
      obtain ⟨f0, hf0, hfeq⟩ := hfs1pt k f1 hf1
      obtain ⟨m3, hm3, _, hfpack, _, hfcode, hfpar, hfret, hfname⟩ := FN1 f0 (List.get?_mem hf0)
      obtain ⟨m2, hm2, _, _, _, _, _, _, _, _⟩ := C1f f0.module m3 hm3
      obtain ⟨m1, hm1, _, e2m, _⟩ := hprojM2 f0.module m2 hm2
      obtain ⟨m0, hm0, heqm⟩ := hm1pt f0.module m1 hm1
      refine ⟨⟨⟨⟨⟨?_, ?_⟩, ?_⟩, ?_⟩, ?_⟩, ?_⟩
      · have hplt := (M1 m0 (List.get?_mem hm0)).2.1
        rw [Nat.zero_add] at hplt
        rw [cc2, hfeq]
        show f0.package < pkgs1.length
        obtain ⟨m2', hm2', _, e2', _⟩ := C1f f0.module m3 hm3
        have hem : m2' = m2 := Option.some.inj (hm2'.symm.trans hm2)
        rw [hfpack, e2', hem, e2m, heqm, hlenP]
        exact hplt
      · rw [cc3, hfeq]
        show f0.module < mods4.length
        rw [hlenM4]
        exact get?_lt_length hm3
      · obtain ⟨str, hstr⟩ := hfname hinv3
        rw [cc4, hfeq]
        show f0.name < im4.identifiers.length
        exact get?_lt_length hstr
      · rw [cc6, hfeq, hns]
        exact hfpar
      · rw [cc7, hfeq, hns]
        exact hfret
      · cases hc : f.code with
        | none => simp
        | some c =>
          cases hfd : (cm.function_defs.getD f1.def_idx default).code with
          | none =>
            have := hnone hfd
            rw [this, hfeq] at hc
            rw [hfcode] at hc
            exact Option.noConfusion hc
          | some cu =>
            obtain ⟨c', hc', _, _, hlocals, hinstr⟩ := hsome cu hfd
            rw [hc] at hc'
            have hcc : c = c' := Option.some.inj hc'
            subst hcc
            simp only [Bool.and_eq_true, List.all_eq_true]
            refine ⟨?_, ?_⟩
            · rw [hns]
              exact hlocals
            · intro b hb
              rw [hnf, hns]
              exact hinstr b hb
    · -- package_map
      intro e he
      have hpm : (load_packages input).2
          = collectMap (package_map_entries 0 (load_packages input).1) := rfl
      rw [hpm] at he
      have := package_map_entries_facts (load_packages input).1 0 e (List.mem_reverse.mp he)
      rw [Nat.zero_add] at this
      rw [hlenP]
      exact this.2
    · -- module_map
      intro e he
      rw [hmmap] at he
      have := (hentM e (List.mem_reverse.mp he)).2
      rw [Nat.zero_add] at this
      rw [hnm]
      exact this
    · -- function_map
      intro e he
      rw [hnf]
      exact hfm e he
    · -- struct_map
      intro e he
      rw [hns]
      exact hsm e he
    · -- identifier_map
      intro e he
      exact get?_lt_length (hinv4 e he)
  · -- code_facts
    intro k f hf
    obtain ⟨f1, hf1, hone⟩ := CODE k f hf
    obtain ⟨_, _, c3, _, c5, _, _, cm, hcmo, hnone, hsome⟩ := load_code_one_facts hsm hfm hone
    obtain ⟨f0, hf0, hfeq⟩ := hfs1pt k f1 hf1
    obtain ⟨m3, hm3, _, _, _, g5, _⟩ := FN1 f0 (List.get?_mem hf0)
    have hf1m : f1.module = f0.module := by rw [hfeq]
    have hlt : f0.module < mods4.length := by rw [hlenM4]; exact get?_lt_length hm3
    obtain ⟨m4, hm4⟩ := get?_some_of_lt hlt
    have hfm0 : f.module = f0.module := by rw [c3, hfeq]
    have hm4f : mods4.get? f.module = some m4 := by rw [hfm0]; exact hm4
    have hgd : mods4.getD f1.module default = m4 := by
      rw [List.getD_eq_get?, hf1m, hm4]
      rfl
    rw [hgd] at hcmo
    refine ⟨m4, cm, hm4f, hcmo, ?_, ?_⟩
    · intro hcode
      rw [c5] at hcode
      have hff1 := hnone hcode
      rw [hff1, hfeq]
      exact g5
    · intro cu hcu
      rw [c5] at hcu
      obtain ⟨c, hc1, hc2, hc3, _⟩ := hsome cu hcu
      exact ⟨c, hc1, hc2, hc3⟩
  · -- input_names
    intro pkg hpkg e he
    obtain ⟨i, hi⟩ := List.mem_iff_get?.mp hpkg
    have hi2 : i < (load_packages input).1.length := by rw [P0.1]; exact get?_lt_length hi
    obtain ⟨p0, hp0⟩ := get?_some_of_lt hi2
    obtain ⟨mp, hmp, _, _, f3, _, _, _⟩ := P0.2 i p0 hp0
    have he2 : mp = pkg := Option.some.inj (hmp.symm.trans hi)
    subst he2
    obtain ⟨mp', hmp', hnames⟩ := inputN p0 (List.get?_mem hp0)
    rw [f3] at hmp'
    have he3 : mp = mp' := Option.some.inj hmp'
    rw [← he3] at hnames
    exact hnames e he
  · -- mod_names
    intro m hm
    obtain ⟨j, hj⟩ := List.mem_iff_get?.mp hm
    obtain ⟨m0, hm0, _, _, e4, e5, _⟩ := hproj40 j m hj
    have hname0 := (M1 m0 (List.get?_mem hm0)).2.2.2.2.2.2.2 IdentifierMap.new_inv
    have hn4 := mono14 _ _ hname0
    show im4.identifiers.getD m.name "" = m.module_id.2
    rw [e4, e5, List.getD_eq_get?, hn4]
    rfl
  · -- struct_names
    intro k s hs
    obtain ⟨s1, hs1, d1, d2, d3, d4, d5, _⟩ := F1 k s hs
    obtain ⟨s0, hs0, hseq⟩ := hss1pt k s1 hs1
    obtain ⟨m1, hm1, cm, hcm, hn1, hn2⟩ := hchkS k s0 hs0
    have hsm0 : s.module = s0.module := by rw [d3, hseq]
    have hlt : s.module < mods4.length := by
      rw [hsm0, hnm, ← hlenM]
      exact get?_lt_length hm1
    obtain ⟨m4, hm4⟩ := get?_some_of_lt hlt
    obtain ⟨m2x, hm2x, _, _, bx3, bx4, _⟩ := hproj42 s.module m4 hm4
    obtain ⟨m1x, hm1x, _, _, cx3, cx4, _⟩ := hprojM2 s.module m2x hm2x
    have he : m1x = m1 := by
      rw [hsm0] at hm1x
      exact Option.some.inj (hm1x.symm.trans hm1)
    subst he
    obtain ⟨m0, hm0, heq0⟩ := hm1pt s0.module m1x hm1
    have hname0 := (M1 m0 (List.get?_mem hm0)).2.2.2.2.2.2.2 IdentifierMap.new_inv
    have hmn2 : im2.identifiers.get? m1x.name = some m0.module_id.2 := by
      rw [heq0]
      exact monoS _ _ hname0
    have hstr1 : im2.get_identifier m1x.name = m0.module_id.2 :=
      IdentifierMap.get_identifier_of_get? hmn2
    obtain ⟨_, _, _, _, hsname⟩ := S1 s0 (List.get?_mem hs0)
    obtain ⟨str2, hstr2⟩ := hsname hinv1
    have hsid : im2.get_identifier s0.name = str2 := IdentifierMap.get_identifier_of_get? hstr2
    have hfin1 : im4.identifiers.get? m1x.name = some m0.module_id.2 := mono24 _ _ hmn2
    have hfin2 : im4.identifiers.get? s0.name = some str2 := mono24 _ _ hstr2
    have hde : s.def_idx = s0.def_idx := by rw [d5, hseq]
    have hnm4 : m4.name = m1x.name := by rw [bx4, cx4]
    have hsn : s.name = s0.name := by rw [d4, hseq]
    refine ⟨m4, cm, hm4, by rw [bx3, cx3]; exact hcm, ?_⟩
    show module_struct_name_from_def cm s.def_idx
      = (im4.identifiers.getD m4.name "", im4.identifiers.getD s.name "")
    rw [hde, hnm4, hsn, List.getD_eq_get?, hfin1, List.getD_eq_get?, hfin2]
    simp only [Option.getD_some]
    have e1 : (module_struct_name_from_def cm s0.def_idx).1 = m0.module_id.2 :=
      hn1.symm.trans hstr1
    have e2 : (module_struct_name_from_def cm s0.def_idx).2 = str2 :=
      hn2.symm.trans hsid
    rw [← e1, ← e2]
  · -- fn_names
    intro k f hf
    obtain ⟨f1, hf1, hone⟩ := CODE k f hf
    obtain ⟨_, _, c3, c4, c5, _⟩ := load_code_one_facts hsm hfm hone
    obtain ⟨f0, hf0, hfeq⟩ := hfs1pt k f1 hf1
    obtain ⟨m3, hm3, cm, hcm, hn1, hn2⟩ := hchkF k f0 hf0
    have hfm0 : f.module = f0.module := by rw [c3, hfeq]
    have hlt : f.module < mods4.length := by rw [hfm0, hlenM4]; exact get?_lt_length hm3
    obtain ⟨m4, hm4⟩ := get?_some_of_lt hlt
    obtain ⟨m3x, hm3x, _, _, ax3, ax4, _⟩ := hprojM4 f.module m4 hm4
    have he : m3x = m3 := by
      rw [hfm0] at hm3x
      exact Option.some.inj (hm3x.symm.trans hm3)
    subst he
    obtain ⟨m2y, hm2y, _, _, _, by4, _⟩ := C1f f0.module m3x hm3
    obtain ⟨m1y, hm1y, _, _, _, cy4, _⟩ := hprojM2 f0.module m2y hm2y
    obtain ⟨m0, hm0, heq0⟩ := hm1pt f0.module m1y hm1y
    have hname0 := (M1 m0 (List.get?_mem hm0)).2.2.2.2.2.2.2 IdentifierMap.new_inv
    have hmn4 : im4.identifiers.get? m3x.name = some m0.module_id.2 := by
      rw [by4, cy4, heq0]
      exact mono14 _ _ hname0
    obtain ⟨_, _, _, _, _, _, _, _, hfname⟩ := FN1 f0 (List.get?_mem hf0)
    obtain ⟨str2, hstr2⟩ := hfname hinv3
    have e1 : (module_function_name_from_def cm f0.def_idx).1 = m0.module_id.2 :=
      hn1.symm.trans (IdentifierMap.get_identifier_of_get? hmn4)
    have e2 : (module_function_name_from_def cm f0.def_idx).2 = str2 :=
      hn2.symm.trans (IdentifierMap.get_identifier_of_get? hstr2)
    have hde : f.def_idx = f0.def_idx := by rw [c5, hfeq]
    have hnm4 : m4.name = m3x.name := ax4
    have hfn : f.name = f0.name := by rw [c4, hfeq]
    refine ⟨m4, cm, hm4, by rw [ax3]; exact hcm, ?_⟩
    show module_function_name_from_def cm f.def_idx
      = (im4.identifiers.getD m4.name "", im4.identifiers.getD f.name "")
    rw [hde, hnm4, hfn, List.getD_eq_get?, hmn4, List.getD_eq_get?, hstr2]
    simp only [Option.getD_some]
    rw [← e1, ← e2]


/-- C4: in every successfully built environment, a function whose raw
definition has no code unit keeps `code = none`; otherwise its resolved code
is present, contains exactly one instruction per raw instruction in the same
order, and every branch/jump's kind and instruction-stream offset is copied
unchanged. -/
theorem code_presence_and_control_flow (input : List MovePackage) (env : GlobalEnv)
    (h : build_environment input = .ok env) :
    ∀ k f, env.functions.get? k = some f →
      ∃ m cm, env.modules.get? f.module = some m ∧ m.module = some cm
      ∧ ((cm.function_defs.getD f.def_idx default).code = none → f.code = none)
      ∧ (∀ cu, (cm.function_defs.getD f.def_idx default).code = some cu →
          ∃ c, f.code = some c ∧ c.code.length = cu.code.length
          ∧ ∀ j, (cu.code.get? j).map raw_cf = (c.code.get? j).map res_cf) :=
  (build_ok_facts h).code_facts

/-- Witness for C4 at the concrete build of `exInput`. -/
theorem code_presence_and_control_flow_witness :
    build_environment exInput = .ok exEnv
    ∧ ∀ k f, exEnv.functions.get? k = some f →
      ∃ m cm, exEnv.modules.get? f.module = some m ∧ m.module = some cm
      ∧ ((cm.function_defs.getD f.def_idx default).code = none → f.code = none)
      ∧ (∀ cu, (cm.function_defs.getD f.def_idx default).code = some cu →
          ∃ c, f.code = some c ∧ c.code.length = cu.code.length
          ∧ ∀ j, (cu.code.get? j).map raw_cf = (c.code.get? j).map res_cf) :=
  ⟨rfl, code_presence_and_control_flow exInput exEnv rfl⟩

/-- C5: every global index contained anywhere in a successfully built
environment — resolved types, instruction operands, owner fields, per-entity
index lists, interned names, and canonical-map values — lies strictly within
the bounds of its target pool (`checkEnv`). -/
theorem indices_within_bounds (input : List MovePackage) (env : GlobalEnv)
    (h : build_environment input = .ok env) : checkEnv env = true :=
  (build_ok_facts h).check

/-- Witness for C5 at the concrete build of `exInput`. -/
theorem indices_within_bounds_witness :
    build_environment exInput = .ok exEnv ∧ checkEnv exEnv = true :=
  ⟨rfl, indices_within_bounds exInput exEnv rfl⟩

/-- C7: a successful build guarantees that every name recovered from a raw
handle agrees with the name recovered from the defining declaration — for the
input map keys against module self-names, and for every loaded module, struct,
and function against `module_*_name_from_def`; contrapositively, whenever
those names differ for any entity, the build fails and no environment is
produced. -/
theorem name_integrity (input : List MovePackage) (env : GlobalEnv)
    (h : build_environment input = .ok env) :
    (∀ pkg ∈ input, ∀ e ∈ pkg.serialized_module_map, e.1 = e.2.self_id.2)
    ∧ (∀ m ∈ env.modules, env.identifiers.getD m.name "" = m.module_id.2)
    ∧ (∀ k s, env.structs.get? k = some s →
        ∃ m cm, env.modules.get? s.module = some m ∧ m.module = some cm
        ∧ module_struct_name_from_def cm s.def_idx =
            (env.identifiers.getD m.name "", env.identifiers.getD s.name ""))
    ∧ (∀ k f, env.functions.get? k = some f →
        ∃ m cm, env.modules.get? f.module = some m ∧ m.module = some cm
        ∧ module_function_name_from_def cm f.def_idx =
            (env.identifiers.getD m.name "", env.identifiers.getD f.name "")) :=
  ⟨(build_ok_facts h).input_names, (build_ok_facts h).mod_names,
   (build_ok_facts h).struct_names, (build_ok_facts h).fn_names⟩

/-- Witness for C7 at the concrete build of `exInput`. -/
theorem name_integrity_witness :
    build_environment exInput = .ok exEnv
    ∧ ((∀ pkg ∈ exInput, ∀ e ∈ pkg.serialized_module_map, e.1 = e.2.self_id.2)
      ∧ (∀ m ∈ exEnv.modules, exEnv.identifiers.getD m.name "" = m.module_id.2)
      ∧ (∀ k s, exEnv.structs.get? k = some s →
          ∃ m cm, exEnv.modules.get? s.module = some m ∧ m.module = some cm
          ∧ module_struct_name_from_def cm s.def_idx =
              (exEnv.identifiers.getD m.name "", exEnv.identifiers.getD s.name ""))
      ∧ (∀ k f, exEnv.functions.get? k = some f →
          ∃ m cm, exEnv.modules.get? f.module = some m ∧ m.module = some cm
          ∧ module_function_name_from_def cm f.def_idx =
              (exEnv.identifiers.getD m.name "", exEnv.identifiers.getD f.name ""))) :=
  ⟨rfl, name_integrity exInput exEnv rfl⟩

/-- C8 (amended): the dependency list of every module in a successfully built
environment is empty — it is initialized empty and never populated, not even
while Call/CallGeneric instructions are resolved. -/
theorem dependencies_never_populated (input : List MovePackage) (env : GlobalEnv)
    (h : build_environment input = .ok env) :
    ∀ m ∈ env.modules, m.dependencies = [] :=
  (build_ok_facts h).deps_empty

/-- Witness for the amended C8 at the concrete build of `exInput`. -/
theorem dependencies_never_populated_witness :
    build_environment exInput = .ok exEnv ∧ ∀ m ∈ exEnv.modules, m.dependencies = [] :=
  ⟨rfl, dependencies_never_populated exInput exEnv rfl⟩

/-- C10: in a successfully built environment every entity records its pool
position in `self_idx`, every module index in a package's list points back to
a module owned by that package, and every struct or function index in a
module's lists points back to an entity owned by that module (and that
module's package). -/
theorem self_idx_owner_consistency (input : List MovePackage) (env : GlobalEnv)
    (h : build_environment input = .ok env) :
    (∀ i p, env.packages.get? i = some p → p.self_idx = i)
    ∧ (∀ i m, env.modules.get? i = some m → m.self_idx = i)
    ∧ (∀ i s, env.structs.get? i = some s → s.self_idx = i)
    ∧ (∀ i f, env.functions.get? i = some f → f.self_idx = i)
    ∧ (∀ i p, env.packages.get? i = some p → ∀ v ∈ p.modules,
        ∃ m, env.modules.get? v = some m ∧ m.package = i)
    ∧ (∀ i m, env.modules.get? i = some m → ∀ v ∈ m.structs,
        ∃ s, env.structs.get? v = some s ∧ s.module = i ∧ s.package = m.package)
    ∧ (∀ i m, env.modules.get? i = some m → ∀ v ∈ m.functions,
        ∃ f, env.functions.get? v = some f ∧ f.module = i ∧ f.package = m.package) :=
  ⟨(build_ok_facts h).pkg_self, (build_ok_facts h).mod_self, (build_ok_facts h).struct_self,
   (build_ok_facts h).fn_self, (build_ok_facts h).pkg_mods, (build_ok_facts h).mod_structs,
   (build_ok_facts h).mod_fns⟩

/-- Witness for C10 at the concrete build of `exInput`. -/
theorem self_idx_owner_consistency_witness :
    build_environment exInput = .ok exEnv
    ∧ ((∀ i p, exEnv.packages.get? i = some p → p.self_idx = i)
      ∧ (∀ i m, exEnv.modules.get? i = some m → m.self_idx = i)
      ∧ (∀ i s, exEnv.structs.get? i = some s → s.self_idx = i)
      ∧ (∀ i f, exEnv.functions.get? i = some f → f.self_idx = i)
      ∧ (∀ i p, exEnv.packages.get? i = some p → ∀ v ∈ p.modules,
          ∃ m, exEnv.modules.get? v = some m ∧ m.package = i)
      ∧ (∀ i m, exEnv.modules.get? i = some m → ∀ v ∈ m.structs,
          ∃ s, exEnv.structs.get? v = some s ∧ s.module = i ∧ s.package = m.package)
      ∧ (∀ i m, exEnv.modules.get? i = some m → ∀ v ∈ m.functions,
          ∃ f, exEnv.functions.get? v = some f ∧ f.module = i ∧ f.package = m.package)) :=
  ⟨rfl, self_idx_owner_consistency exInput exEnv rfl⟩

end MovePA